import Mathlib

/-!
# Verification of the technology-radar ingestion pipeline

A shallow embedding, in Lean 4, of the technology-radar ingestion pipeline
(scraper → processor → ingestor → orchestrator) of the knowledge-graph
repository, together with theorems settling the frozen claims about it.

Modelling conventions:
* Python strings are Lean `String`s; all operations on them are re-implemented
  structurally over `String.data : List Char` so that every definition reduces
  inside the kernel (the core library's `String` operations use well-founded
  recursion and do not).  The re-implementations follow Python semantics for
  the ASCII inputs this pipeline manipulates.
* Machine floats appear only as the constant credibility score `8.5`, which is
  exactly representable; it is modelled as the rational `(8.5 : ℚ)` and no
  arithmetic is ever performed on it.
* The Neo4j property graph is modelled as explicit lists of nodes and edges
  (`Graph` below); each parameterized Cypher query of the repositories is
  translated into a pure function on that state.
* Network I/O is modelled by passing a fetch function
  `String → Except String HtmlPage`; a Python exception escaping an HTTP call
  corresponds to the `Except.error` case, and the scraper's `try/except`
  blocks correspond to mapping that case to `none` / `[]`.
* The pydantic request models (`MethodologyCreate` …) are embedded as plain
  structures carrying the same fields; their construction-time length/range
  validations are not modelled (all inputs considered stay inside the bounds).
-/

namespace KG

/-! ## Python-faithful string primitives (structural, kernel-reducible) -/

/-- Boolean prefix test on character lists. -/
def isPrefixOfL : List Char → List Char → Bool
  | [], _ => true
  | _ :: _, [] => false
  | a :: as, b :: bs => a == b && isPrefixOfL as bs

/-- Boolean infix (substring) test on character lists. -/
def isInfixOfL (needle : List Char) : List Char → Bool
  | [] => isPrefixOfL needle []
  | c :: cs => isPrefixOfL needle (c :: cs) || isInfixOfL needle cs

/-- Python's `sub in s` substring test. -/
def strContains (s sub : String) : Bool := isInfixOfL sub.data s.data

/-- Python's `str.lower()` (ASCII). -/
def pyLower (s : String) : String := ⟨s.data.map Char.toLower⟩

/-- Worker for `pyReplace`, fuelled by the length of the subject string. -/
def replaceGo (fuel : Nat) (pat rep : List Char) : List Char → List Char
  | [] => []
  | c :: cs =>
    match fuel with
    | 0 => c :: cs
    | fuel + 1 =>
      if isPrefixOfL pat (c :: cs) then
        rep ++ replaceGo fuel pat rep ((c :: cs).drop pat.length)
      else
        c :: replaceGo fuel pat rep cs

/-- Python's `s.replace(pat, rep)`: all non-overlapping occurrences,
left to right (for a non-empty pattern, the only use in this code base). -/
def pyReplace (s pat rep : String) : String :=
  if pat.data.isEmpty then s else ⟨replaceGo s.data.length pat.data rep.data s.data⟩

/-- Python's slice `s[:n]`. -/
def takeStr (s : String) (n : Nat) : String := ⟨s.data.take n⟩

/-- Python's `s.endswith(suffix)`. -/
def endsWithStr (s suffix : String) : Bool :=
  isPrefixOfL suffix.data.reverse s.data.reverse

/-- Python's slice `s[:-n]` for `n ≤ len(s)`. -/
def dropRightStr (s : String) (n : Nat) : String := ⟨s.data.take (s.data.length - n)⟩

/-- Python's `len(s)`. -/
def lenStr (s : String) : Nat := s.data.length

/-- Python's `\s` class (space, tab, newline, carriage return, form feed,
vertical tab), also used by `str.strip()`. -/
def isPyWs (c : Char) : Bool :=
  c == ' ' || c == '\t' || c == '\n' || c == '\x0d' || c == '\x0c' || c == '\x0b'

/-- Python's `str.strip()` (no argument: strips whitespace on both ends). -/
def pyStrip (s : String) : String :=
  ⟨((s.data.dropWhile isPyWs).reverse.dropWhile isPyWs).reverse⟩

/-- Python's `str.rstrip(',.')`: drops trailing commas and periods. -/
def pyRstripPunct (s : String) : String :=
  ⟨(s.data.reverse.dropWhile (fun c => c == ',' || c == '.')).reverse⟩

/-- Python's `s.split(c)` for a single-character separator (keeps empty parts). -/
def splitChar (sep : Char) (s : String) : List String :=
  (s.data.foldr
    (fun c (acc : List (List Char)) =>
      match acc with
      | [] => [[c]]
      | cur :: done => if c == sep then [] :: (cur :: done) else (c :: cur) :: done)
    [[]]).map (fun cs => (⟨cs⟩ : String))

/-- Python's `str.title()` (ASCII): a letter is uppercased when the previous
character is not a letter, lowercased otherwise. -/
def pyTitle (s : String) : String :=
  ⟨(s.data.foldl
      (fun (st : List Char × Bool) c =>
        let c' := if c.isAlpha then (if st.2 then c.toLower else c.toUpper) else c
        (st.1 ++ [c'], c.isAlpha))
      ([], false)).1⟩

/-- Deduplication keeping the first occurrence of each element.  Python's
`list(set(tools))` deduplicates in an unspecified (hash-dependent) order; the
claims settled here only depend on the resulting multiset being duplicate-free,
so a deterministic first-occurrence order is fixed. -/
def dedupFirst (l : List String) : List String :=
  l.foldl (fun acc t => if acc.contains t then acc else acc ++ [t]) []

/-- Python's `s.split()[0]` as an `Option`: first maximal run of
non-whitespace characters. -/
def firstWsToken (s : String) : Option String :=
  match (s.data.dropWhile isPyWs).takeWhile (fun c => !isPyWs c) with
  | [] => none
  | tok => some ⟨tok⟩

/-! ## Technology-radar data model (`models/radar.py`, `models/nodes.py`) -/

/-- `RadarRing`: Technology Radar adoption levels. -/
inductive RadarRing
  | adopt
  | trial
  | assess
  | hold
deriving DecidableEq

/-- The `.value` of the Python string enum. -/
def RadarRing.value : RadarRing → String
  | .adopt => "Adopt"
  | .trial => "Trial"
  | .assess => "Assess"
  | .hold => "Hold"

/-- `RadarQuadrant`: Technology Radar quadrants. -/
inductive RadarQuadrant
  | techniques
  | tools
  | platforms
  | languages_frameworks
deriving DecidableEq

/-- The `.value` of the Python string enum. -/
def RadarQuadrant.value : RadarQuadrant → String
  | .techniques => "Techniques"
  | .tools => "Tools"
  | .platforms => "Platforms"
  | .languages_frameworks => "Languages & Frameworks"

/-- `RadarMovement`: Technology Radar movement indicators. -/
inductive RadarMovement
  | new
  | moved_in
  | moved_out
  | no_change
deriving DecidableEq

/-- The `.value` of the Python string enum. -/
def RadarMovement.value : RadarMovement → String
  | .new => "New"
  | .moved_in => "Moved in"
  | .moved_out => "Moved out"
  | .no_change => "No change"

/-- `RadarTechnique` (pydantic model, `models/radar.py`).  `source_url` is the
`Optional[HttpUrl]` field, kept as a plain string. -/
structure RadarTechnique where
  name : String
  quadrant : RadarQuadrant := .techniques
  ring : RadarRing
  movement : RadarMovement := .no_change
  description : String
  volume : Nat := 32
  edition_date : String := "2025-04"
  source_url : Option String := none
  related_blips : List String := []
  methodology_connections : List String := []
  practice_connections : List String := []
deriving DecidableEq

/-- `MethodologyCreate` request model (`models/nodes.py`). -/
structure MethodologyCreate where
  name : String
  description : Option String := none
  origin : Option String := none
  year_created : Option Int := none
  category : Option String := none
deriving DecidableEq

/-- `PracticeCreate` request model (`models/nodes.py`). -/
structure PracticeCreate where
  name : String
  description : Option String := none
  methodology_name : String
  tools : List String := []
  difficulty_level : Option String := none
  estimated_time : Option String := none
deriving DecidableEq

/-- `RuleCreate` request model (`models/nodes.py`); `priority` defaults to
`"medium"`. -/
structure RuleCreate where
  name : String
  title : String
  detail : String
  practice_name : String
  priority : Option String := some "medium"
  category : Option String := none
  tags : List String := []
deriving DecidableEq

/-- The evidence dictionary built by the processor; the ingestor converts it
into an `EvidenceCreate` with the same fields, so one structure serves both.
`credibility_score` is the exactly-representable float `8.5`, kept in `ℚ`. -/
structure EvidenceRecord where
  name : String
  title : String
  url : String
  summary : String
  source_type : String
  credibility_score : ℚ

/-- A connection dictionary built by `_generate_connections`. -/
structure ConnectionRecord where
  type : String
  from_type : String
  from_name : String
  to_type : String
  to_name : String
deriving DecidableEq

/-! ## Tool extraction (`RadarDataProcessor._extract_tools_from_description`)

The three regex heuristics are translated as explicit scanners with Python
`re.findall` semantics (leftmost, non-overlapping matches; greedy quantifiers
with backtracking where the pattern allows it).  For these specific patterns
the only backtracking point is the length of the
`(?:\s+[A-Z][a-z]+)*` star, which the scanners realize by preferring the
longest expansion whose continuation matches. -/

/-- `[A-Za-z0-9_]`, the `\b` word-character class. -/
def isWordChar (c : Char) : Bool := c.isAlphanum || c == '_'

/-- Parse `[A-Z][a-z]+` at the head of the input (maximal munch: a shorter
lowercase run is never followed by whitespace, so no backtracking arises). -/
def parseCapWord : List Char → Option (List Char × List Char)
  | [] => none
  | c :: cs =>
    if c.isUpper then
      let lows := cs.takeWhile Char.isLower
      if lows.isEmpty then none else some (c :: lows, cs.drop lows.length)
    else none

/-- Match the literal alternation `(?:tool|platform|framework|library)`. -/
def keywordAfter (cs : List Char) : Option (List Char) :=
  if isPrefixOfL "tool".data cs then some (cs.drop 4)
  else if isPrefixOfL "platform".data cs then some (cs.drop 8)
  else if isPrefixOfL "framework".data cs then some (cs.drop 9)
  else if isPrefixOfL "library".data cs then some (cs.drop 7)
  else none

/-- Continuation of pattern 1 after an initial `[A-Z][a-z]+` capture `acc`:
greedily extend the capture by `\s+[A-Z][a-z]+` repetitions, preferring the
longest expansion whose remainder matches `\s+(?:tool|platform|framework|library)`;
returns the capture and the input following the whole match. -/
def pat1Ext (fuel : Nat) (acc : List Char) (cs : List Char) : Option (List Char × List Char) :=
  match fuel with
  | 0 => none
  | fuel + 1 =>
    let ws := cs.takeWhile isPyWs
    if ws.isEmpty then none
    else
      let rest := cs.drop ws.length
      let ended : Option (List Char × List Char) :=
        match keywordAfter rest with
        | some after => some (acc, after)
        | none => none
      match parseCapWord rest with
      | some (w, rest2) =>
        match pat1Ext fuel (acc ++ ws ++ w) rest2 with
        | some r => some r
        | none => ended
      | none => ended

/-- Scanner for pattern 1,
`\b([A-Z][a-z]+(?:\s+[A-Z][a-z]+)*)\s+(?:tool|platform|framework|library)`:
`prevIsWord` tracks whether the previous character is a word character (the
`\b` test); after a match, scanning resumes at the end of the whole match. -/
def scanPat1 (fuel : Nat) (prevIsWord : Bool) (cs : List Char) : List (List Char) :=
  match fuel with
  | 0 => []
  | fuel + 1 =>
    match cs with
    | [] => []
    | c :: rest =>
      if !prevIsWord && c.isUpper then
        match parseCapWord (c :: rest) with
        | some (w0, rest1) =>
          match pat1Ext (rest1.length + 1) w0 rest1 with
          | some (cap, after) => cap :: scanPat1 fuel true after
          | none => scanPat1 fuel (isWordChar c) rest
        | none => scanPat1 fuel (isWordChar c) rest
      else
        scanPat1 fuel (isWordChar c) rest

/-- Try pattern 2, `tools?\s+like\s+([^.]+)`, at the current position.  The
optional `s` never needs backtracking: declining a present `s` leaves `s`
where `\s+` must match. -/
def tryPat2 (cs : List Char) : Option (List Char × List Char) :=
  if isPrefixOfL "tool".data cs then
    let cs1 := cs.drop 4
    let cs2 := match cs1 with
      | 's' :: r => r
      | _ => cs1
    let ws1 := cs2.takeWhile isPyWs
    if ws1.isEmpty then none
    else
      let cs3 := cs2.drop ws1.length
      if isPrefixOfL "like".data cs3 then
        let cs4 := cs3.drop 4
        let ws2 := cs4.takeWhile isPyWs
        if ws2.isEmpty then none
        else
          let cs5 := cs4.drop ws2.length
          let cap := cs5.takeWhile (fun c => c != '.')
          if cap.isEmpty then none else some (cap, cs5.drop cap.length)
      else none
  else none

/-- Scanner for pattern 2. -/
def scanPat2 (fuel : Nat) (cs : List Char) : List (List Char) :=
  match fuel with
  | 0 => []
  | fuel + 1 =>
    match cs with
    | [] => []
    | c :: rest =>
      match tryPat2 (c :: rest) with
      | some (cap, after) => cap :: scanPat2 fuel after
      | none => scanPat2 fuel rest

/-- Greedy star `(?:\s+[A-Z][a-z]+)*` with no continuation constraint
(pattern 3 ends with it, so maximal munch is exact). -/
def pat3Star (fuel : Nat) (acc : List Char) (cs : List Char) : List Char × List Char :=
  match fuel with
  | 0 => (acc, cs)
  | fuel + 1 =>
    let ws := cs.takeWhile isPyWs
    if ws.isEmpty then (acc, cs)
    else
      match parseCapWord (cs.drop ws.length) with
      | some (w, rest) => pat3Star fuel (acc ++ ws ++ w) rest
      | none => (acc, cs)

/-- Try pattern 3, `using\s+([A-Z][a-z]+(?:\s+[A-Z][a-z]+)*)`, at the current
position. -/
def tryPat3 (cs : List Char) : Option (List Char × List Char) :=
  if isPrefixOfL "using".data cs then
    let cs1 := cs.drop 5
    let ws := cs1.takeWhile isPyWs
    if ws.isEmpty then none
    else
      match parseCapWord (cs1.drop ws.length) with
      | some (w0, rest) => some (pat3Star (rest.length + 1) w0 rest)
      | none => none
  else none

/-- Scanner for pattern 3. -/
def scanPat3 (fuel : Nat) (cs : List Char) : List (List Char) :=
  match fuel with
  | 0 => []
  | fuel + 1 =>
    match cs with
    | [] => []
    | c :: rest =>
      match tryPat3 (c :: rest) with
      | some (cap, after) => cap :: scanPat3 fuel after
      | none => scanPat3 fuel rest

/-- The stop-word set `excluded_words` of
`_extract_tools_from_description`. -/
def excluded_words : List String :=
  ["the", "and", "or", "with", "for", "in", "on", "at", "to", "from"]

/-- Per-match clean-up of `_extract_tools_from_description`: skip matches of
stripped length ≤ 1, strip and drop trailing `,.`, split comma-separated
lists. -/
def processToolMatch (tools : List String) (m : String) : List String :=
  if 1 < lenStr (pyStrip m) then
    let cleaned := pyRstripPunct (pyStrip m)
    if strContains cleaned "," then
      tools ++ ((splitChar ',' cleaned).map pyStrip)
    else tools ++ [cleaned]
  else tools

/-- `RadarDataProcessor._extract_tools_from_description`: regex heuristics,
deduplication, stop-word removal, cap at 5. -/
def extract_tools_from_description (description : String) : List String :=
  let m1 := scanPat1 (description.data.length + 1) false description.data
  let m2 := scanPat2 (description.data.length + 1) description.data
  let m3 := scanPat3 (description.data.length + 1) description.data
  let allMatches := (m1 ++ m2 ++ m3).map (fun cs => (⟨cs⟩ : String))
  let tools := allMatches.foldl processToolMatch []
  ((dedupFirst tools).filter (fun tool => !(excluded_words.contains (pyLower tool)))).take 5

/-! ## The processor (`pipeline/processors/radar_processor.py`) -/

/-- `RadarDataProcessor._map_ring_to_difficulty`'s dictionary. -/
def difficulty_mapping : List (String × String) :=
  [("Adopt", "Beginner"), ("Trial", "Intermediate"), ("Assess", "Advanced"), ("Hold", "Advanced")]

/-- `RadarDataProcessor._map_ring_to_difficulty`: `mapping.get(ring.value, "Intermediate")`. -/
def map_ring_to_difficulty (ring : RadarRing) : String :=
  (difficulty_mapping.lookup ring.value).getD "Intermediate"

/-- `RadarDataProcessor._map_ring_to_priority`'s dictionary. -/
def priority_mapping : List (String × String) :=
  [("Adopt", "high"), ("Trial", "medium"), ("Assess", "low"), ("Hold", "critical")]

/-- `RadarDataProcessor._map_ring_to_priority`: `mapping.get(ring.value, "medium")`. -/
def map_ring_to_priority (ring : RadarRing) : String :=
  (priority_mapping.lookup ring.value).getD "medium"

/-- `RadarDataProcessor._estimate_implementation_time`. -/
def estimate_implementation_time (technique : RadarTechnique) : String :=
  if technique.ring.value == "Adopt" then "1-2 weeks setup, ongoing practice"
  else if technique.ring.value == "Trial" then "2-4 weeks evaluation, 1-2 months implementation"
  else if technique.ring.value == "Assess" then "1-2 weeks research, proof of concept"
  else "Avoid new implementation"

/-- The slug `f"thoughtworks-{technique.name.lower().replace(' ', '-')}"`. -/
def techniqueSlug (name : String) : String :=
  "thoughtworks-" ++ pyReplace (pyLower name) " " "-"

/-- `RadarDataProcessor._map_technique_to_entities`. -/
def map_technique_to_entities (technique : RadarTechnique) :
    List MethodologyCreate × List PracticeCreate :=
  let technique_lower := pyLower technique.name
  let description_lower := pyLower technique.description
  -- Agile/DevOps methodology detection (mapping rule A)
  let practicesA : List PracticeCreate :=
    if (["agile", "devops", "continuous", "automation", "testing"].any
          (fun keyword =>
            strContains technique_lower keyword || strContains description_lower keyword))
        && (strContains technique_lower "testing" || strContains description_lower "testing")
        && (technique.ring.value == "Adopt" || technique.ring.value == "Trial") then
      [{ name := technique.name ++ " Practice",
         description := some ("Implementation of " ++ technique.name ++
           " as described in ThoughtWorks Technology Radar"),
         methodology_name := "DevOps",
         tools := [],
         difficulty_level := some (map_ring_to_difficulty technique.ring),
         estimated_time := some (estimate_implementation_time technique) }]
    else []
  -- Quality Assurance methodology (mapping rule B): keyed on the NAME only
  let qualityHit :=
    ["security", "quality", "testing", "review"].any
      (fun keyword => strContains technique_lower keyword)
  let methodologies : List MethodologyCreate :=
    if qualityHit then
      [{ name := "Quality Assurance",
         description := some "Systematic approach to ensuring software quality and security",
         origin := some "Software Engineering Best Practices",
         category := some "Quality" }]
    else []
  let practicesB : List PracticeCreate :=
    if qualityHit then
      [{ name := technique.name,
         description := some
           (if 500 < lenStr technique.description then
              takeStr technique.description 500 ++ "..."
            else technique.description),
         methodology_name := "Quality Assurance",
         tools := extract_tools_from_description technique.description,
         difficulty_level := some (map_ring_to_difficulty technique.ring),
         estimated_time := some (estimate_implementation_time technique) }]
    else []
  (methodologies, practicesA ++ practicesB)

/-- `RadarDataProcessor._generate_rules_from_technique`. -/
def generate_rules_from_technique (technique : RadarTechnique) : List RuleCreate :=
  let rule_priority := map_ring_to_priority technique.ring
  let titleDetail : String × String :=
    if technique.ring.value == "Adopt" then
      ("Adopt " ++ technique.name,
       "We feel strongly that the industry should be adopting " ++ technique.name ++ ". " ++
         takeStr technique.description 300)
    else if technique.ring.value == "Trial" then
      ("Trial " ++ technique.name,
       "Worth pursuing " ++ technique.name ++
         ". It is important to understand how to build up this capability. " ++
         takeStr technique.description 300)
    else if technique.ring.value == "Assess" then
      ("Assess " ++ technique.name,
       "Promising technique worth exploring: " ++ technique.name ++ ". " ++
         takeStr technique.description 300)
    else  -- Hold
      ("Use " ++ technique.name ++ " with Caution",
       "Proceed with caution when using " ++ technique.name ++ ". " ++
         takeStr technique.description 300)
  let rule_detail :=
    if endsWithStr titleDetail.2 "..." then dropRightStr titleDetail.2 3 ++ "."
    else titleDetail.2
  [{ name := techniqueSlug technique.name,
     title := titleDetail.1,
     detail := rule_detail,
     practice_name := technique.name ++ " Practice",
     priority := some rule_priority,
     category := some "thoughtworks-radar",
     tags := ["thoughtworks", "technology-radar", pyLower technique.quadrant.value] }]

/-- `RadarDataProcessor._generate_evidence_from_technique`: one record iff the
technique has a source URL. -/
def generate_evidence_from_technique (technique : RadarTechnique) : List EvidenceRecord :=
  match technique.source_url with
  | some url =>
    [{ name := techniqueSlug technique.name,
       title := "ThoughtWorks Technology Radar: " ++ technique.name,
       url := url,
       summary := "ThoughtWorks Technology Radar assessment of " ++ technique.name ++
         " - " ++ technique.ring.value,
       source_type := "technology-radar",
       credibility_score := 8.5 }]
  | none => []

/-- `RadarDataProcessor._generate_connections`: one SUPPORTED_BY entry per
rule, pointing at the evidence slug (whether or not evidence was emitted). -/
def generate_connections (technique : RadarTechnique)
    (rules : List RuleCreate) : List ConnectionRecord :=
  rules.map (fun rule =>
    { type := "SUPPORTED_BY",
      from_type := "Rule",
      from_name := rule.name,
      to_type := "Evidence",
      to_name := techniqueSlug technique.name })

/-- The batch returned by `process_radar_technique`. -/
structure ProcessedData where
  methodologies : List MethodologyCreate
  practices : List PracticeCreate
  rules : List RuleCreate
  evidence : List EvidenceRecord
  connections : List ConnectionRecord

/-- `RadarDataProcessor.process_radar_technique`. -/
def process_radar_technique (technique : RadarTechnique) : ProcessedData :=
  let mp := map_technique_to_entities technique
  let rules := generate_rules_from_technique technique
  let evidence := generate_evidence_from_technique technique
  let connections := generate_connections technique rules
  { methodologies := mp.1,
    practices := mp.2,
    rules := rules,
    evidence := evidence,
    connections := connections }

/-! ## The graph store and repositories (`database/repository.py`)

The Neo4j property graph is modelled as lists of the created node records plus
edge lists.  Each repository method is the translation of its parameterized
Cypher query:
* node lookup by name matches on the `name` property;
* `PracticeRepository.create` / `RuleRepository.create` `MATCH` the parent
  node first, so with a missing parent the query returns no row and the
  repository raises (`Option.none` here);
* `RuleRepository.get_by_practice` returns the rules attached to the practice
  with the given name — rule records keep their `practice_name`, and since a
  rule node is only ever created when that parent practice exists (practices
  are never deleted by the pipeline), filtering stored rules by
  `practice_name` is that query;
* `EvidenceRepository.create` runs a bare `CREATE` (no existence check);
* `EvidenceRepository.link_to_rule` matches both endpoints and reports whether
  an edge was created. -/

/-- The property-graph state. -/
structure Graph where
  methodologies : List MethodologyCreate := []
  practices : List PracticeCreate := []
  rules : List RuleCreate := []
  evidence : List EvidenceRecord := []
  supported_by : List (String × String) := []
  radar_techniques : List RadarTechnique := []
  influences : List (String × String) := []

/-- The empty store. -/
def emptyGraph : Graph := {}

/-- `MethodologyRepository.get_by_name` as a Boolean existence test. -/
def methodologyExists (g : Graph) (name : String) : Bool :=
  g.methodologies.any (fun m => m.name == name)

/-- `PracticeRepository.get_by_name` as a Boolean existence test. -/
def practiceExists (g : Graph) (name : String) : Bool :=
  g.practices.any (fun p => p.name == name)

/-- `MATCH (r:Rule {name: $rule_name})` as a Boolean existence test. -/
def ruleExists (g : Graph) (name : String) : Bool :=
  g.rules.any (fun r => r.name == name)

/-- `MATCH (e:Evidence {name: $evidence_name})` as a Boolean existence test. -/
def evidenceExists (g : Graph) (name : String) : Bool :=
  g.evidence.any (fun e => e.name == name)

/-- `RuleRepository.get_by_practice` (the `ORDER BY` clause is irrelevant to
the claims settled here and is dropped). -/
def rulesByPractice (g : Graph) (practice_name : String) : List RuleCreate :=
  g.rules.filter (fun r => r.practice_name == practice_name)

/-- `MethodologyRepository.create`: an unconditional `CREATE`. -/
def createMethodology (g : Graph) (m : MethodologyCreate) : Graph :=
  { g with methodologies := g.methodologies ++ [m] }

/-- `PracticeRepository.create`: `MATCH` the parent methodology, `CREATE` the
practice; `none` models the `RuntimeError` raised when the match is empty. -/
def createPractice (g : Graph) (p : PracticeCreate) : Option Graph :=
  if methodologyExists g p.methodology_name then
    some { g with practices := g.practices ++ [p] }
  else none

/-- `RuleRepository.create`: `MATCH` the parent practice, `CREATE` the rule;
`none` models the `RuntimeError` raised when the match is empty. -/
def createRule (g : Graph) (r : RuleCreate) : Option Graph :=
  if practiceExists g r.practice_name then
    some { g with rules := g.rules ++ [r] }
  else none

/-- `EvidenceRepository.create`: an unconditional `CREATE`, no dedup. -/
def createEvidence (g : Graph) (e : EvidenceRecord) : Graph :=
  { g with evidence := g.evidence ++ [e] }

/-- `EvidenceRepository.link_to_rule`: create a SUPPORTED_BY edge when both
endpoints exist; the returned Boolean is `created > 0`. -/
def linkToRule (g : Graph) (evidence_name rule_name : String) : Graph × Bool :=
  if evidenceExists g evidence_name && ruleExists g rule_name then
    ({ g with supported_by := g.supported_by ++ [(rule_name, evidence_name)] }, true)
  else (g, false)

/-! ## The ingestor (`pipeline/ingestors/neo4j_ingestor.py`) -/

/-- The counters-and-errors dictionary returned by `ingest_processed_data`. -/
structure IngestResults where
  methodologies_created : Nat := 0
  practices_created : Nat := 0
  rules_created : Nat := 0
  evidence_created : Nat := 0
  connections_created : Nat := 0
  errors : List String := []

/-- One iteration of the methodology loop: create unless a methodology of
that name exists (creation itself cannot fail, so no error branch arises). -/
def methStep (s : Graph × IngestResults) (m : MethodologyCreate) : Graph × IngestResults :=
  if methodologyExists s.1 m.name then s
  else
    (createMethodology s.1 m,
     { s.2 with methodologies_created := s.2.methodologies_created + 1 })

/-- One iteration of the practice loop: create unless a practice of that name
exists; a missing parent methodology is caught and recorded as an error. -/
def pracStep (s : Graph × IngestResults) (p : PracticeCreate) : Graph × IngestResults :=
  if practiceExists s.1 p.name then s
  else
    match createPractice s.1 p with
    | some g => (g, { s.2 with practices_created := s.2.practices_created + 1 })
    | none =>
      (s.1, { s.2 with errors := s.2.errors ++ ["Failed to create practice " ++ p.name] })

/-- One iteration of the rule loop: look the parent practice's rules up by
name; create unless one with the same name is there; a missing parent practice
is caught and recorded as an error. -/
def ruleStep (s : Graph × IngestResults) (r : RuleCreate) : Graph × IngestResults :=
  let existing_rules := rulesByPractice s.1 r.practice_name
  if existing_rules.any (fun er => er.name == r.name) then s
  else
    match createRule s.1 r with
    | some g => (g, { s.2 with rules_created := s.2.rules_created + 1 })
    | none =>
      (s.1, { s.2 with errors := s.2.errors ++ ["Failed to create rule " ++ r.title] })

/-- One iteration of the evidence loop: create unconditionally (the
`EvidenceCreate(**evidence_data)` conversion succeeds for processor output,
whose fields satisfy the model's bounds). -/
def evidStep (s : Graph × IngestResults) (e : EvidenceRecord) : Graph × IngestResults :=
  (createEvidence s.1 e,
   { s.2 with evidence_created := s.2.evidence_created + 1 })

/-- One iteration of the connection loop: `_create_connection` links
SUPPORTED_BY edges and raises when `link_to_rule` reports failure (recorded as
an error); any other connection type is silently a no-op and still counted. -/
def connStep (s : Graph × IngestResults) (c : ConnectionRecord) : Graph × IngestResults :=
  if c.type == "SUPPORTED_BY" then
    match linkToRule s.1 c.to_name c.from_name with
    | (g, true) =>
      (g, { s.2 with connections_created := s.2.connections_created + 1 })
    | (g, false) =>
      (g, { s.2 with errors := s.2.errors ++ ["Failed to create connection"] })
  else (s.1, { s.2 with connections_created := s.2.connections_created + 1 })

/-- `Neo4jRadarIngestor.ingest_processed_data`: the five loops in order,
best-effort with a running error list. -/
def ingest_processed_data (g : Graph) (pd : ProcessedData) : IngestResults × Graph :=
  let s0 : Graph × IngestResults := (g, {})
  let s1 := pd.methodologies.foldl methStep s0
  let s2 := pd.practices.foldl pracStep s1
  let s3 := pd.rules.foldl ruleStep s2
  let s4 := pd.evidence.foldl evidStep s3
  let s5 := pd.connections.foldl connStep s4
  (s5.2, s5.1)

/-- The state after `ingest_processed_data`'s methodology loop (the loop
states are named for the proofs below). -/
def ingestState1 (g : Graph) (pd : ProcessedData) : Graph × IngestResults :=
  pd.methodologies.foldl methStep (g, {})

/-- The state after the practice loop. -/
def ingestState2 (g : Graph) (pd : ProcessedData) : Graph × IngestResults :=
  pd.practices.foldl pracStep (ingestState1 g pd)

/-- The state after the rule loop. -/
def ingestState3 (g : Graph) (pd : ProcessedData) : Graph × IngestResults :=
  pd.rules.foldl ruleStep (ingestState2 g pd)

/-- The state after the evidence loop. -/
def ingestState4 (g : Graph) (pd : ProcessedData) : Graph × IngestResults :=
  pd.evidence.foldl evidStep (ingestState3 g pd)

/-- The state after the connection loop. -/
def ingestState5 (g : Graph) (pd : ProcessedData) : Graph × IngestResults :=
  pd.connections.foldl connStep (ingestState4 g pd)

/-- The invariant making the practice loop a no-op for an item: the practice
is already present, or its parent methodology is absent (so creation keeps
failing). -/
def PracInv (g : Graph) (p : PracticeCreate) : Prop :=
  practiceExists g p.name = true ∨ methodologyExists g p.methodology_name = false

/-- The invariant making the rule loop a no-op for an item: a rule of that
name hangs off the parent practice already, or the parent practice is absent
(so creation keeps failing). -/
def RuleInv (g : Graph) (r : RuleCreate) : Prop :=
  (rulesByPractice g r.practice_name).any (fun er => er.name == r.name) = true
  ∨ practiceExists g r.practice_name = false

/-- The number of records in `l` whose name (under `f`) is `n`. -/
def nameCount {α : Type} (f : α → String) (l : List α) (n : String) : Nat :=
  (l.filter (fun x => f x == n)).length

/-- The result dictionary of `ingest_radar_technique_direct`. -/
structure DirectResult where
  success : Bool
  radar_technique_created : Bool := false
  technique_name : Option String := none

/-- `Neo4jRadarIngestor._link_radar_technique_to_practices`: `MERGE` an
INFLUENCES_PRACTICE edge to each practice whose name or description contains
the first word of the lowercased technique name, or whose tools list has it as
a member.  Failures in this step are warnings only. -/
def linkRadarTechniqueToPractices (g : Graph) (t : RadarTechnique) : Graph :=
  match firstWsToken (pyLower t.name) with
  | none => g  -- name.split()[0] raises; caught and logged as a warning
  | some keyword =>
    let matching := g.practices.filter (fun p =>
      strContains p.name keyword ||
      strContains (p.description.getD "") keyword ||
      p.tools.contains keyword)
    let newEdges := (matching.map (fun p => (t.name, p.name))).filter
      (fun e => !g.influences.contains e)
    { g with influences := g.influences ++ newEdges }

/-- `Neo4jRadarIngestor.ingest_radar_technique_direct`: `MERGE` the
RadarTechnique node by name (overwriting its fields), then link practices. -/
def ingest_radar_technique_direct (g : Graph) (t : RadarTechnique) : DirectResult × Graph :=
  let g1 :=
    if g.radar_techniques.any (fun rt => rt.name == t.name) then
      { g with radar_techniques :=
          g.radar_techniques.map (fun rt => if rt.name == t.name then t else rt) }
    else { g with radar_techniques := g.radar_techniques ++ [t] }
  let g2 := linkRadarTechniqueToPractices g1 t
  ({ success := true, radar_technique_created := true, technique_name := some t.name }, g2)

/-! ## The scraper (`pipeline/scrapers/thoughtworks_scraper.py`)

An HTTP fetch is a function `String → Except String HtmlPage`; `Except.error`
is an exception escaping `client.get` / `raise_for_status`.  `HtmlPage` is the
BeautifulSoup view of a fetched document: the pieces the scraper reads off the
parse tree (bs4 itself is an external library and is not re-specified). -/

/-- The parsed view of a fetched HTML page. -/
structure HtmlPage where
  /-- `href` values of all anchors (`soup.find_all('a', href=True)`). -/
  hrefs : List String := []
  /-- Paragraph texts of the first `div` with a class matching
  `content|main|description`, when such a div exists. -/
  content_div_paragraphs : Option (List String) := none
  /-- Texts of all `<p>` elements. -/
  paragraphs : List String := []
  /-- `soup.get_text()` of the whole page. -/
  full_text : String := ""
  /-- Text of the first `h1` (or `title`) element. -/
  h1_or_title : Option String := none
  /-- Link texts in the "Related blips" section (empty when absent). -/
  related_blip_links : List String := []
  /-- The volume number parsed from a "Volume N" text, when found. -/
  volume_info : Option Nat := none
  /-- The edition date parsed from a month-year text, when found. -/
  edition_date_info : Option String := none
deriving DecidableEq

/-- Scan for `"://"` and return scheme plus authority (up to the next `/`). -/
def findSchemeAuth (fuel : Nat) (acc : List Char) (cs : List Char) : Option (List Char) :=
  match fuel with
  | 0 => none
  | fuel + 1 =>
    match cs with
    | [] => none
    | c :: rest =>
      if isPrefixOfL "://".data (c :: rest) then
        some (acc ++ "://".data ++ ((c :: rest).drop 3).takeWhile (fun ch => ch != '/'))
      else findSchemeAuth fuel (acc ++ [c]) rest

/-- Everything up to and including the last `/` of a URL (empty when the URL
has no `/`). -/
def upToLastSlash (cs : List Char) : List Char :=
  ((cs.reverse.dropWhile (fun c => c != '/')).reverse)

/-- `urllib.parse.urljoin` for the URL shapes this pipeline uses: an
absolute-path reference replaces the base URL's path; a relative reference
replaces its last segment. -/
def urljoin (base path : String) : String :=
  if path.data.isEmpty then base
  else if isPrefixOfL "/".data path.data then
    match findSchemeAuth (base.data.length + 1) [] base.data with
    | some schemeAuth => ⟨schemeAuth ++ path.data⟩
    | none => path
  else ⟨upToLastSlash base.data ++ path.data⟩

/-- `ThoughtWorksRadarScraper._extract_technique_name`: title-cased trailing
path segment, falling back to the page's `h1`/`title` text. -/
def extract_technique_name (path : String) (page : HtmlPage) : Option String :=
  let path_parts := splitChar '/' path
  match path_parts.getLast? with
  | some last =>
    if lenStr last ≠ 0 then some (pyTitle (pyReplace last "-" " "))
    else
      match page.h1_or_title with
      | some t => some (pyStrip t)
      | none => none
  | none =>
    match page.h1_or_title with
    | some t => some (pyStrip t)
    | none => none

/-- `ThoughtWorksRadarScraper._extract_description`: the first two paragraphs
of a content div when available, else the first paragraph whose stripped text
exceeds 100 characters. -/
def extract_description (page : HtmlPage) : Option String :=
  let fallback :=
    (page.paragraphs.map pyStrip).find? (fun text => 100 < lenStr text)
  match page.content_div_paragraphs with
  | some ps =>
    if ps.isEmpty then fallback
    else some (String.intercalate " " ((ps.take 2).map pyStrip))
  | none => fallback

/-- `ThoughtWorksRadarScraper._extract_ring`: keyword plus phrase-template
co-occurrence over the lowercased page text. -/
def extract_ring (page : HtmlPage) : Option RadarRing :=
  let text := pyLower page.full_text
  if strContains text "adopt" &&
      (strContains text "we feel strongly" || strContains text "should be adopting") then
    some .adopt
  else if strContains text "trial" &&
      (strContains text "worth pursuing" || strContains text "try this technology") then
    some .trial
  else if strContains text "assess" &&
      (strContains text "promising" || strContains text "worth exploring") then
    some .assess
  else if strContains text "hold" &&
      (strContains text "proceed with caution" || strContains text "serious problems") then
    some .hold
  else none

/-- `ThoughtWorksRadarScraper._extract_related_blips`: stripped link texts of
length > 3 from the "Related blips" section. -/
def extract_related_blips (page : HtmlPage) : List String :=
  (page.related_blip_links.map pyStrip).filter
    (fun text => lenStr text ≠ 0 && 3 < lenStr text)

/-- `ThoughtWorksRadarScraper.get_latest_edition_info`: `none` when the fetch
of the base URL fails; otherwise the (possibly absent) volume and date. -/
def get_latest_edition_info (fetch : String → Except String HtmlPage) (base_url : String) :
    Option (Option Nat × Option String) :=
  match fetch base_url with
  | .error _ => none
  | .ok page => some (page.volume_info, page.edition_date_info)

/-- `ThoughtWorksRadarScraper.scrape_technique`.  Transport failures and the
pydantic `ValidationError` raised when the page yields no usable
volume/edition-date (the dictionary's keys hold `None`, which the `int`/`str`
fields reject) are caught by the method's `except` clause: both are `none`
here, never a raised exception.  The pydantic bounds on `name` (1–200 chars),
`description` (≥ 10 chars) and `volume` (≥ 1) are checked likewise. -/
def scrape_technique (fetch : String → Except String HtmlPage) (base_url : String)
    (technique_path : String) : Option RadarTechnique :=
  let url := urljoin base_url technique_path
  match fetch url with
  | .error _ => none
  | .ok page =>
    match extract_technique_name technique_path page with
    | none => none
    | some name =>
      let description := extract_description page
      let ring := extract_ring page
      let related_blips := extract_related_blips page
      let edition_info := get_latest_edition_info fetch base_url
      let volumeDate : Option Nat × Option String :=
        match edition_info with
        | none => (some 32, some "2025-04")
        | some info => info
      match volumeDate with
      | (some volume, some edition_date) =>
        let desc := description.getD ("Technology Radar technique: " ++ name)
        if 1 ≤ lenStr name && lenStr name ≤ 200 && 10 ≤ lenStr desc && 1 ≤ volume then
          some { name := name,
                 quadrant := .techniques,
                 ring := ring.getD .assess,
                 movement := .no_change,
                 description := desc,
                 volume := volume,
                 edition_date := edition_date,
                 source_url := some url,
                 related_blips := related_blips,
                 methodology_connections := [],
                 practice_connections := [] }
        else none
      | _ => none

/-- `ThoughtWorksRadarScraper.scrape_techniques_list`: collect hrefs
containing `/techniques/summary/`, deduplicate; an empty list on any
transport failure. -/
def scrape_techniques_list (fetch : String → Except String HtmlPage) (base_url : String) :
    List String :=
  match fetch (base_url ++ "/techniques") with
  | .error _ => []
  | .ok page =>
    dedupFirst (page.hrefs.filter (fun href => strContains href "/techniques/summary/"))

/-! ## The orchestrator (`pipeline/orchestrator.py`)

The orchestrator is embedded over an abstract scraping environment: the
result of `scrape_techniques_list` and the `scrape_technique` function (both
instantiable with the fetch-parameterized scraper above).  The `try/except`
around each loop body is unreachable in the embedding because every embedded
stage is total; the fixed 2-second politeness sleep has no observable effect
on the summary and is dropped. -/

/-- The scraping environment a pipeline run works against. -/
structure PipelineEnv where
  scrapeList : List String
  scrape : String → Option RadarTechnique

/-- The summary dictionary of `run_full_pipeline` (timing fields and the
radar-techniques summary read back from the store are omitted: no claim
mentions them). -/
structure FullSummary where
  techniques_processed : Nat := 0
  total_entities_created : Nat := 0
  errors : List String := []
  success : Bool := true

/-- One iteration of `run_full_pipeline`'s loop: a failed scrape is logged
and skipped (nothing is appended to the summary's error list); a successful
one is processed, ingested, and ingested directly, its four entity counters
added to the total and its ingest errors appended. -/
def pipelineStep (env : PipelineEnv) (s : FullSummary × Graph) (path : String) :
    FullSummary × Graph :=
  match env.scrape path with
  | none => s
  | some technique =>
    let processed_data := process_radar_technique technique
    let ingestOut := ingest_processed_data s.2 processed_data
    let directOut := ingest_radar_technique_direct ingestOut.2 technique
    ({ techniques_processed := s.1.techniques_processed + 1,
       total_entities_created := s.1.total_entities_created +
         (ingestOut.1.methodologies_created + ingestOut.1.practices_created +
          ingestOut.1.rules_created + ingestOut.1.evidence_created),
       errors := s.1.errors ++ ingestOut.1.errors,
       success := s.1.success }, directOut.2)

/-- `RadarPipelineOrchestrator.run_full_pipeline`: list techniques when no
paths were given, then run the loop over at most the first 5 paths. -/
def run_full_pipeline (env : PipelineEnv) (technique_paths : List String) (g : Graph) :
    FullSummary × Graph :=
  let paths := if technique_paths.isEmpty then env.scrapeList else technique_paths
  (paths.take 5).foldl (pipelineStep env) ({}, g)

/-- The summary dictionary of `run_single_technique` (the success and failure
branches return different key sets; optional fields model the union). -/
structure SingleSummary where
  success : Bool
  technique : Option String := none
  entities_created : Nat := 0
  radar_technique_created : Bool := false
  errors : List String := []
  error : Option String := none

/-- `RadarPipelineOrchestrator.run_single_technique`. -/
def run_single_technique (env : PipelineEnv) (technique_name : String) (g : Graph) :
    SingleSummary × Graph :=
  let technique_path := "/techniques/summary/" ++ technique_name
  match env.scrape technique_path with
  | none =>
    ({ success := false,
       error := some ("Failed to scrape technique: " ++ technique_name) }, g)
  | some technique =>
    let processed_data := process_radar_technique technique
    let ingestOut := ingest_processed_data g processed_data
    let directOut := ingest_radar_technique_direct ingestOut.2 technique
    ({ success := true,
       technique := some technique.name,
       entities_created :=
         ingestOut.1.methodologies_created + ingestOut.1.practices_created +
           ingestOut.1.rules_created + ingestOut.1.evidence_created,
       radar_technique_created := directOut.1.success,
       errors := ingestOut.1.errors }, directOut.2)

/-! ## Specification-side definitions and concrete inputs -/

/-- The sum of the four entity counters of an ingest result, following the
claim's words: methodologies, practices, rules and evidence created —
`connections_created` is not a summand. -/
def entitiesFromIngest (ic : IngestResults) : Nat :=
  ic.methodologies_created + ic.practices_created + ic.rules_created + ic.evidence_created

/-- Specification-side restatement of the reported total for a full run:
the running sum, over the processed items, of `entitiesFromIngest` of the
ingest result (threading the store exactly as the pipeline does). -/
def reported_entities_spec (env : PipelineEnv) (technique_paths : List String) (g : Graph) :
    Nat :=
  let paths := if technique_paths.isEmpty then env.scrapeList else technique_paths
  ((paths.take 5).foldl
    (fun (acc : Nat × Graph) path =>
      match env.scrape path with
      | none => acc
      | some technique =>
        let ingestOut := ingest_processed_data acc.2 (process_radar_technique technique)
        let directOut := ingest_radar_technique_direct ingestOut.2 technique
        (acc.1 + entitiesFromIngest ingestOut.1, directOut.2))
    (0, g)).1

/-- A 313-character description containing "security" and "review" (and none
of the rule-A keywords agile/devops/continuous/automation/testing). -/
def threatModelingDescription : String :=
  "Threat modeling is a structured approach to identifying potential security threats and weaknesses early in the design of a system. Teams review data flows, trust boundaries and entry points, rank the discovered risks, and plan mitigations ahead of delivery, making security review a routine part of everyday work."

/-- The scenario-A input technique: name "Threat Modeling", ring Adopt, a
280+-character description containing "security" and "review", a source URL. -/
def threatModelingTechnique : RadarTechnique :=
  { name := "Threat Modeling",
    ring := .adopt,
    description := threatModelingDescription,
    source_url := some "https://x/y" }

/-- A technique demonstrating a run in which all five entity kinds (including
a connection) are created: the name triggers mapping rules A and B, the ring
is Adopt, and a source URL is present. -/
def demoTechnique : RadarTechnique :=
  { name := "Unit Testing",
    ring := .adopt,
    description := "This is a demo description for checks.",
    source_url := some "https://x/y" }

/-- A store already holding the DevOps methodology, so that the rule-A
practice (and hence the rule and its SUPPORTED_BY connection) can be
created. -/
def demoGraph : Graph := { methodologies := [{ name := "DevOps" }] }

/-- An environment whose scraper returns `demoTechnique` for its path. -/
def demoEnv : PipelineEnv :=
  { scrapeList := [],
    scrape := fun path =>
      if path == "/techniques/summary/unit-testing" then some demoTechnique else none }

/-- A technique whose name contains the quality keyword "security". -/
def c4Technique : RadarTechnique :=
  { name := "Security Scan",
    ring := .trial,
    description := "Scan all inputs using Fuzzer every night." }

/-- An index page with three distinct technique-summary links, two duplicate
ones, and one non-matching link. -/
def c9page : HtmlPage :=
  { hrefs := ["/techniques/summary/a", "/techniques/summary/b", "/techniques/summary/a",
              "/techniques/summary/c", "/techniques/summary/b", "/other"] }

/-- A fetch that serves `c9page` for every URL. -/
def c9fetchOk : String → Except String HtmlPage := fun _ => Except.ok c9page

/-- A fetch whose every request fails at the transport layer. -/
def c9fetchErr : String → Except String HtmlPage := fun _ => Except.error "connection error"

/-- A fetch whose every request fails at the transport layer. -/
def c8fetchFail : String → Except String HtmlPage := fun _ => Except.error "connection refused"

/-- A technique page for `/techniques/summary/fuzz-testing` whose text pins
the ring to Adopt and whose first paragraph is a substantial description. -/
def c8page : HtmlPage :=
  { paragraphs := ["Fuzz checks feed randomized inputs into a program to surface crashes and hangs, and teams run them continuously against services."],
    full_text := "adopt we feel strongly" }

/-- A fetch that serves `c8page` for the fuzz-testing technique page and fails
for every other URL (in particular for the base URL, so edition info falls
back to its defaults). -/
def c8fetchMixed : String → Except String HtmlPage := fun url =>
  if url == "https://www.thoughtworks.com/techniques/summary/fuzz-testing" then Except.ok c8page
  else Except.error "connection refused"

/-- The pipeline environment built on `c8fetchMixed` through the real
scraper. -/
def c8env : PipelineEnv :=
  { scrapeList := [],
    scrape := scrape_technique c8fetchMixed "https://www.thoughtworks.com/radar" }

/-! ## Helper lemmas -/

/-- The fold inside `dedupFirst` preserves duplicate-freeness. -/
lemma dedupFirst_loop_nodup (l : List String) :
    ∀ acc : List String, acc.Nodup →
      (l.foldl (fun acc t => if acc.contains t then acc else acc ++ [t]) acc).Nodup := by
  induction l with
  | nil => exact fun _ h => h
  | cons t l ih =>
    intro acc h
    simp only [List.foldl_cons]
    by_cases hc : acc.contains t = true
    · rw [if_pos hc]
      exact ih acc h
    · rw [if_neg hc]
      refine ih _ ?_
      have ht : t ∉ acc := by simpa using (Bool.not_eq_true _).mp hc
      simp [List.nodup_append, h, ht]

/-- Membership in the fold inside `dedupFirst`. -/
lemma dedupFirst_loop_mem (l : List String) :
    ∀ (acc : List String) (x : String),
      (x ∈ l.foldl (fun acc t => if acc.contains t then acc else acc ++ [t]) acc ↔
        x ∈ acc ∨ x ∈ l) := by
  induction l with
  | nil => simp
  | cons t l ih =>
    intro acc x
    simp only [List.foldl_cons]
    by_cases hc : acc.contains t = true
    · rw [if_pos hc]
      have htacc : t ∈ acc := by simpa using hc
      rw [ih]
      constructor
      · rintro (h | h)
        · exact Or.inl h
        · exact Or.inr (List.mem_cons_of_mem _ h)
      · rintro (h | h)
        · exact Or.inl h
        · rcases List.mem_cons.mp h with h | h
          · exact Or.inl (h ▸ htacc)
          · exact Or.inr h
    · rw [if_neg hc]
      rw [ih]
      simp only [List.mem_append, List.mem_singleton, List.mem_cons]
      tauto

/-- `dedupFirst` yields a duplicate-free list. -/
lemma dedupFirst_nodup (l : List String) : (dedupFirst l).Nodup :=
  dedupFirst_loop_nodup l [] List.nodup_nil

/-- `dedupFirst` preserves the set of elements. -/
lemma mem_dedupFirst (l : List String) (x : String) : x ∈ dedupFirst l ↔ x ∈ l := by
  have h := dedupFirst_loop_mem l [] x
  simp only [List.not_mem_nil, false_or] at h
  exact h

/-- The extracted tools list is capped at 5 entries. -/
lemma extract_tools_length_le (description : String) :
    (extract_tools_from_description description).length ≤ 5 :=
  List.length_take_le 5 _

/-- The extracted tools list is duplicate-free. -/
lemma extract_tools_nodup (description : String) :
    (extract_tools_from_description description).Nodup :=
  (((dedupFirst_nodup _).filter _).sublist (List.take_sublist 5 _))

/-- No extracted tool is a stop word. -/
lemma extract_tools_no_stopwords (description : String) :
    (extract_tools_from_description description).all
      (fun tool => !(excluded_words.contains (pyLower tool))) = true := by
  refine List.all_eq_true.mpr (fun tool ht => ?_)
  simp only [extract_tools_from_description] at ht
  have h1 := List.mem_of_mem_take ht
  have h2 := List.of_mem_filter h1
  exact h2

/-- A name with `" Practice"` appended never equals the bare name. -/
lemma name_practice_ne (s : String) : ((s ++ " Practice") == s) = false := by
  refine beq_eq_false_iff_ne.mpr (fun heq => ?_)
  have hlen := congrArg String.length heq
  rw [String.length_append] at hlen
  have h9 : (" Practice" : String).length = 9 := rfl
  omega

/-- A pipeline-loop iteration counts at most one processed technique. -/
lemma pipelineStep_processed_le (env : PipelineEnv) (s : FullSummary × Graph) (path : String) :
    (pipelineStep env s path).1.techniques_processed ≤ s.1.techniques_processed + 1 := by
  rcases henv : env.scrape path with _ | t <;> simp [pipelineStep, henv]

/-- The pipeline loop counts at most one processed technique per path. -/
lemma foldl_processed_le (env : PipelineEnv) (l : List String) :
    ∀ s : FullSummary × Graph,
      ((l.foldl (pipelineStep env) s).1.techniques_processed ≤
        s.1.techniques_processed + l.length) := by
  induction l with
  | nil => intro s; simp
  | cons p l ih =>
    intro s
    simp only [List.foldl_cons, List.length_cons]
    have h1 := ih (pipelineStep env s p)
    have h2 := pipelineStep_processed_le env s p
    omega

/-! ## The claims -/

set_option maxRecDepth 40000 in
/-- C1 (counterexample): on the scenario-A input — name "Threat Modeling",
ring Adopt, a 280+-character description containing "security" and "review",
a source URL — the processor emits no Methodology and no Practice (mapping
rule B keys on the technique name only), contradicting the claimed counts of
one each. -/
theorem scenario_a_counterexample :
    threatModelingTechnique.name = "Threat Modeling"
    ∧ threatModelingTechnique.ring = RadarRing.adopt
    ∧ 280 ≤ lenStr threatModelingTechnique.description
    ∧ strContains threatModelingTechnique.description "security" = true
    ∧ strContains threatModelingTechnique.description "review" = true
    ∧ threatModelingTechnique.source_url.isSome = true
    ∧ ¬ ((process_radar_technique threatModelingTechnique).methodologies.length = 1
         ∧ (process_radar_technique threatModelingTechnique).practices.length = 1) := by
  refine ⟨rfl, rfl, by decide, by decide, by decide, rfl, ?_⟩
  intro h
  have := h.1
  revert this
  decide

set_option maxRecDepth 40000 in
/-- C1 (amended): on the scenario-A input the processor emits 0 Methodologies
and 0 Practices (the quality path fires on name keywords only, and "threat
modeling" contains none), and — as the claim states — exactly 1 Rule named
"thoughtworks-threat-modeling" with priority "high" and title "Adopt Threat
Modeling", 1 Evidence with credibility score 8.5, and 1 SUPPORTED_BY
connection. -/
theorem scenario_a_actual :
    (process_radar_technique threatModelingTechnique).methodologies = []
    ∧ (process_radar_technique threatModelingTechnique).practices = []
    ∧ (process_radar_technique threatModelingTechnique).rules.map
        (fun r => (r.name, r.priority, r.title)) =
        [("thoughtworks-threat-modeling", some "high", "Adopt Threat Modeling")]
    ∧ (process_radar_technique threatModelingTechnique).evidence.map
        (fun e => e.credibility_score) = [(8.5 : ℚ)]
    ∧ (process_radar_technique threatModelingTechnique).evidence.length = 1
    ∧ (process_radar_technique threatModelingTechnique).connections.map
        (fun c => c.type) = ["SUPPORTED_BY"] := by
  exact ⟨by decide, by decide, by decide, rfl, rfl, rfl⟩

/-- C2: for every technique the processor emits exactly one Rule request,
whose name is the `thoughtworks-` slug of the lowercased, hyphenated name,
whose title follows the ring ("Adopt X" / "Trial X" / "Assess X" /
"Use X with Caution"), whose detail prefixes the ring phrase onto the first
300 characters of the description with a trailing ellipsis normalized to a
period, and whose parent practice name is `"<name> Practice>"` — whether or
not mapping rules A/B fired. -/
theorem rule_generation_exactly_one (t : RadarTechnique) :
    ∃ r : RuleCreate,
      (process_radar_technique t).rules = [r]
      ∧ r.name = "thoughtworks-" ++ pyReplace (pyLower t.name) " " "-"
      ∧ r.title = (match t.ring with
          | .adopt => "Adopt " ++ t.name
          | .trial => "Trial " ++ t.name
          | .assess => "Assess " ++ t.name
          | .hold => "Use " ++ t.name ++ " with Caution")
      ∧ r.detail =
          (let phrased := (match t.ring with
            | .adopt => "We feel strongly that the industry should be adopting " ++
                t.name ++ ". "
            | .trial => "Worth pursuing " ++ t.name ++
                ". It is important to understand how to build up this capability. "
            | .assess => "Promising technique worth exploring: " ++ t.name ++ ". "
            | .hold => "Proceed with caution when using " ++ t.name ++ ". ") ++
            takeStr t.description 300
          if endsWithStr phrased "..." then dropRightStr phrased 3 ++ "." else phrased)
      ∧ r.practice_name = t.name ++ " Practice" := by
  rcases t with ⟨name, quadrant, ring, movement, description, volume, edition_date,
    source_url, related_blips, mc, pc⟩
  cases ring <;> exact ⟨_, rfl, rfl, rfl, rfl, rfl⟩

/-- C5: both ring dictionaries contain every ring value (the `.get` default
is never needed), and the mappings are Adopt→Beginner/high,
Trial→Intermediate/medium, Assess→Advanced/low, Hold→Advanced/critical. -/
theorem ring_mappings_total :
    ∀ ring : RadarRing,
      (difficulty_mapping.lookup ring.value).isSome = true
      ∧ map_ring_to_difficulty ring = (match ring with
          | .adopt => "Beginner"
          | .trial => "Intermediate"
          | .assess => "Advanced"
          | .hold => "Advanced")
      ∧ (priority_mapping.lookup ring.value).isSome = true
      ∧ map_ring_to_priority ring = (match ring with
          | .adopt => "high"
          | .trial => "medium"
          | .assess => "low"
          | .hold => "critical") := by
  intro ring
  cases ring <;> exact ⟨rfl, rfl, rfl, rfl⟩

/-- C6: the processor emits exactly one Evidence record iff the technique has
a source URL, always with credibility score 8.5 and source type
"technology-radar", and exactly one SUPPORTED_BY connection per generated
Rule, pointing at the evidence slug whether or not that Evidence record was
emitted. -/
theorem evidence_and_connections (t : RadarTechnique) :
    ((process_radar_technique t).evidence.length = if t.source_url.isSome then 1 else 0)
    ∧ (process_radar_technique t).evidence.map (fun e => e.credibility_score) =
        (if t.source_url.isSome then [(8.5 : ℚ)] else [])
    ∧ (process_radar_technique t).evidence.map (fun e => e.source_type) =
        (if t.source_url.isSome then ["technology-radar"] else [])
    ∧ (process_radar_technique t).connections =
        (process_radar_technique t).rules.map (fun r =>
          { type := "SUPPORTED_BY", from_type := "Rule", from_name := r.name,
            to_type := "Evidence", to_name := techniqueSlug t.name })
    ∧ (process_radar_technique t).connections.length =
        (process_radar_technique t).rules.length := by
  rcases t with ⟨name, quadrant, ring, movement, description, volume, edition_date,
    source_url, related_blips, mc, pc⟩
  cases source_url <;> exact ⟨rfl, rfl, rfl, rfl, rfl⟩

/-- C7: given more than 5 explicit paths, a full pipeline run equals the run
on just the first 5 of them, and the reported `techniques_processed` is at
most 5. -/
theorem run_full_pipeline_caps_at_five (env : PipelineEnv) (technique_paths : List String)
    (g : Graph) (h : 5 < technique_paths.length) :
    run_full_pipeline env technique_paths g =
      run_full_pipeline env (technique_paths.take 5) g
    ∧ (run_full_pipeline env technique_paths g).1.techniques_processed ≤ 5 := by
  have hne : technique_paths.isEmpty = false := by
    cases technique_paths with
    | nil => simp at h
    | cons a l => rfl
  have hne5 : (technique_paths.take 5).isEmpty = false := by
    cases technique_paths with
    | nil => simp at h
    | cons a l => rfl
  constructor
  · simp [run_full_pipeline, hne, hne5, List.take_take]
  · have hb := foldl_processed_le env (technique_paths.take 5) ({}, g)
    have hlen : (technique_paths.take 5).length ≤ 5 := List.length_take_le 5 _
    simp only [run_full_pipeline, hne, Bool.false_eq_true, if_false]
    simp only [FullSummary.techniques_processed] at hb ⊢
    omega

/-- C7 witness: a run on 6 explicit paths. -/
theorem run_full_pipeline_caps_at_five_witness :
    5 < (["a", "b", "c", "d", "e", "f"] : List String).length
    ∧ (run_full_pipeline ⟨[], fun _ => none⟩ ["a", "b", "c", "d", "e", "f"] emptyGraph =
         run_full_pipeline ⟨[], fun _ => none⟩
           ((["a", "b", "c", "d", "e", "f"] : List String).take 5) emptyGraph
       ∧ (run_full_pipeline ⟨[], fun _ => none⟩ ["a", "b", "c", "d", "e", "f"]
           emptyGraph).1.techniques_processed ≤ 5) :=
  ⟨by decide, run_full_pipeline_caps_at_five ⟨[], fun _ => none⟩
    ["a", "b", "c", "d", "e", "f"] emptyGraph (by decide)⟩

/-- C9: `scrape_techniques_list` returns a duplicate-free list with exactly
the hrefs matching the technique-summary pattern; a transport failure yields
the empty list; and on an index page with 3 distinct matching links plus 2
duplicates it returns exactly those 3 paths. -/
theorem techniques_list_dedup (fetch fetchE : String → Except String HtmlPage)
    (base_url : String) (page : HtmlPage) (e : String)
    (hok : fetch (base_url ++ "/techniques") = Except.ok page)
    (herr : fetchE (base_url ++ "/techniques") = Except.error e) :
    (scrape_techniques_list fetch base_url).Nodup
    ∧ (∀ x, x ∈ scrape_techniques_list fetch base_url ↔
        x ∈ page.hrefs.filter (fun href => strContains href "/techniques/summary/"))
    ∧ scrape_techniques_list fetchE base_url = []
    ∧ scrape_techniques_list c9fetchOk "https://www.thoughtworks.com/radar" =
        ["/techniques/summary/a", "/techniques/summary/b", "/techniques/summary/c"] := by
  refine ⟨?_, ?_, ?_, by decide⟩
  · simp only [scrape_techniques_list, hok]
    exact dedupFirst_nodup _
  · intro x
    simp only [scrape_techniques_list, hok]
    exact mem_dedupFirst _ x
  · simp [scrape_techniques_list, herr]

/-- C9 witness: the two fetch hypotheses at concrete fetch functions. -/
theorem techniques_list_dedup_witness :
    c9fetchOk ("https://b" ++ "/techniques") = Except.ok c9page
    ∧ c9fetchErr ("https://b" ++ "/techniques") = Except.error "connection error"
    ∧ ((scrape_techniques_list c9fetchOk "https://b").Nodup
       ∧ (∀ x, x ∈ scrape_techniques_list c9fetchOk "https://b" ↔
           x ∈ c9page.hrefs.filter (fun href => strContains href "/techniques/summary/"))
       ∧ scrape_techniques_list c9fetchErr "https://b" = []
       ∧ scrape_techniques_list c9fetchOk "https://www.thoughtworks.com/radar" =
           ["/techniques/summary/a", "/techniques/summary/b", "/techniques/summary/c"]) :=
  ⟨rfl, rfl, techniques_list_dedup c9fetchOk c9fetchErr "https://b" c9page
    "connection error" rfl rfl⟩

/-- C4: whenever the technique's name contains one of security / quality /
testing / review, the processor emits exactly one Methodology —
"Quality Assurance", category "Quality" — and a Practice named exactly as the
technique, parented to "Quality Assurance", with the description truncated to
500 characters (ellipsis appended only when longer), and with tools extracted
from the description by the regex heuristics, deduplicated, stop-word-free,
and capped at 5. -/
theorem quality_path (t : RadarTechnique)
    (h : (["security", "quality", "testing", "review"].any
        (fun keyword => strContains (pyLower t.name) keyword)) = true) :
    (process_radar_technique t).methodologies.map (fun m => (m.name, m.category)) =
      [("Quality Assurance", some "Quality")]
    ∧ (process_radar_technique t).practices.filter (fun p => p.name == t.name) =
        [{ name := t.name,
           description := some (if 500 < lenStr t.description then
               takeStr t.description 500 ++ "..." else t.description),
           methodology_name := "Quality Assurance",
           tools := extract_tools_from_description t.description,
           difficulty_level := some (map_ring_to_difficulty t.ring),
           estimated_time := some (estimate_implementation_time t) }]
    ∧ (extract_tools_from_description t.description).length ≤ 5
    ∧ (extract_tools_from_description t.description).Nodup
    ∧ (extract_tools_from_description t.description).all
        (fun tool => !(excluded_words.contains (pyLower tool))) = true := by
  refine ⟨?_, ?_, extract_tools_length_le _, extract_tools_nodup _,
    extract_tools_no_stopwords _⟩
  · simp only [process_radar_technique, map_technique_to_entities, h, if_true]
    rfl
  · simp only [process_radar_technique, map_technique_to_entities, h, if_true]
    rw [List.filter_append]
    have hA : ∀ l : List PracticeCreate,
        (if (["agile", "devops", "continuous", "automation", "testing"].any
              (fun keyword => strContains (pyLower t.name) keyword ||
                strContains (pyLower t.description) keyword))
            && (strContains (pyLower t.name) "testing" ||
                strContains (pyLower t.description) "testing")
            && (t.ring.value == "Adopt" || t.ring.value == "Trial") then
          [{ name := t.name ++ " Practice",
             description := some ("Implementation of " ++ t.name ++
               " as described in ThoughtWorks Technology Radar"),
             methodology_name := "DevOps",
             tools := [],
             difficulty_level := some (map_ring_to_difficulty t.ring),
             estimated_time := some (estimate_implementation_time t) }]
        else ([] : List PracticeCreate)).filter (fun p => p.name == t.name) = [] := by
      intro l
      split
      · simp [List.filter_cons, name_practice_ne]
      · rfl
    rw [hA []]
    simp [List.filter_cons]

/-- C4 witness: the technique "Security Scan" triggers the quality path. -/
theorem quality_path_witness :
    ((["security", "quality", "testing", "review"].any
        (fun keyword => strContains (pyLower c4Technique.name) keyword)) = true)
    ∧ ((process_radar_technique c4Technique).methodologies.map (fun m => (m.name, m.category)) =
        [("Quality Assurance", some "Quality")]
      ∧ (process_radar_technique c4Technique).practices.filter
          (fun p => p.name == c4Technique.name) =
          [{ name := c4Technique.name,
             description := some (if 500 < lenStr c4Technique.description then
                 takeStr c4Technique.description 500 ++ "..." else c4Technique.description),
             methodology_name := "Quality Assurance",
             tools := extract_tools_from_description c4Technique.description,
             difficulty_level := some (map_ring_to_difficulty c4Technique.ring),
             estimated_time := some (estimate_implementation_time c4Technique) }]
      ∧ (extract_tools_from_description c4Technique.description).length ≤ 5
      ∧ (extract_tools_from_description c4Technique.description).Nodup
      ∧ (extract_tools_from_description c4Technique.description).all
          (fun tool => !(excluded_words.contains (pyLower tool))) = true) :=
  ⟨by decide, quality_path c4Technique (by decide)⟩

set_option maxRecDepth 100000 in
/-- C8 (counterexample): in a run where the first path's scrape fails at the
transport layer (so the scraper yields no technique) and the second path
succeeds, the failure is NOT recorded in the run summary's `errors` list —
it stays empty and `success` stays true — refuting "recorded in the run's
error reporting" (the skip-and-continue part does hold: the second item is
processed). -/
theorem scrape_failure_not_recorded :
    c8env.scrape "/techniques/summary/broken" = none
    ∧ (run_full_pipeline c8env
        ["/techniques/summary/broken", "/techniques/summary/fuzz-testing"]
        demoGraph).1.techniques_processed = 1
    ∧ (run_full_pipeline c8env
        ["/techniques/summary/broken", "/techniques/summary/fuzz-testing"]
        demoGraph).1.errors = []
    ∧ (run_full_pipeline c8env
        ["/techniques/summary/broken", "/techniques/summary/fuzz-testing"]
        demoGraph).1.success = true := by
  exact ⟨by decide, by decide, by decide, by decide⟩

/-- C8 (amended): a transport failure makes `scrape_technique` return `none`
rather than raising, and the orchestrator skips the failed item and continues
with the remaining paths; nothing is appended to the run's `errors` list for
it (a run consisting only of the failing path reports the untouched initial
summary: zero processed, no errors, success true). -/
theorem scrape_failure_skipped (fetch : String → Except String HtmlPage)
    (base_url p1 e : String) (rest : List String) (g : Graph) (env : PipelineEnv)
    (hscrape : env.scrape = scrape_technique fetch base_url)
    (hfail : fetch (urljoin base_url p1) = Except.error e) :
    scrape_technique fetch base_url p1 = none
    ∧ run_full_pipeline env (p1 :: rest) g = (rest.take 4).foldl (pipelineStep env) ({}, g)
    ∧ (run_full_pipeline env [p1] g).1 = {} := by
  have h1 : scrape_technique fetch base_url p1 = none := by
    simp [scrape_technique, hfail]
  have hstep : pipelineStep env (({} : FullSummary), g) p1 = ({}, g) := by
    simp [pipelineStep, hscrape, h1]
  refine ⟨h1, ?_, ?_⟩
  · show ((p1 :: rest).take 5).foldl (pipelineStep env) ({}, g) =
      (rest.take 4).foldl (pipelineStep env) ({}, g)
    rw [show (p1 :: rest).take 5 = p1 :: rest.take 4 from rfl, List.foldl_cons, hstep]
  · show (((p1 :: ([] : List String)).take 5).foldl (pipelineStep env) ({}, g)).1 = {}
    rw [show (p1 :: ([] : List String)).take 5 = [p1] from rfl]
    simp [List.foldl_cons, hstep]

/-- C8 witness: the amended statement at a concrete failing fetch. -/
theorem scrape_failure_skipped_witness :
    c8env.scrape = scrape_technique c8fetchMixed "https://www.thoughtworks.com/radar"
    ∧ c8fetchMixed (urljoin "https://www.thoughtworks.com/radar" "/techniques/summary/broken") =
        Except.error "connection refused"
    ∧ (scrape_technique c8fetchMixed "https://www.thoughtworks.com/radar"
          "/techniques/summary/broken" = none
       ∧ run_full_pipeline c8env ["/techniques/summary/broken", "/x"] emptyGraph =
           (["/x"].take 4).foldl (pipelineStep c8env) ({}, emptyGraph)
       ∧ (run_full_pipeline c8env ["/techniques/summary/broken"] emptyGraph).1 = {}) :=
  ⟨rfl, rfl, by
    have h := scrape_failure_skipped c8fetchMixed "https://www.thoughtworks.com/radar"
      "/techniques/summary/broken" "connection refused" ["/x"] emptyGraph c8env rfl rfl
    exact h⟩

/-- The totals bookkeeping of the pipeline loop coincides with the
specification-side fold of `reported_entities_spec`. -/
lemma pipeline_total_spec_aux (env : PipelineEnv) (l : List String) :
    ∀ s : FullSummary × Graph,
      ((l.foldl (pipelineStep env) s).1.total_entities_created,
        (l.foldl (pipelineStep env) s).2) =
      l.foldl (fun (acc : Nat × Graph) path =>
        match env.scrape path with
        | none => acc
        | some technique =>
          let ingestOut := ingest_processed_data acc.2 (process_radar_technique technique)
          let directOut := ingest_radar_technique_direct ingestOut.2 technique
          (acc.1 + entitiesFromIngest ingestOut.1, directOut.2))
        (s.1.total_entities_created, s.2) := by
  induction l with
  | nil => intro s; rfl
  | cons p l ih =>
    intro s
    simp only [List.foldl_cons]
    rw [ih (pipelineStep env s p)]
    rcases henv : env.scrape p with _ | t
    · simp [pipelineStep, henv]
    · simp [pipelineStep, henv, entitiesFromIngest]

/-- C10: in both run summaries the reported entities total is exactly the sum
of the four counters (methodologies, practices, rules, evidence) returned by
`ingest_processed_data`; `connections_created` is never included — witnessed
concretely by a run that creates 1 connection yet reports 5 = 1+2+1+1
entities. -/
theorem entities_total_is_sum_of_four (env : PipelineEnv) (g : Graph)
    (technique_name : String) (t : RadarTechnique)
    (h : env.scrape ("/techniques/summary/" ++ technique_name) = some t) :
    (run_single_technique env technique_name g).1.entities_created =
      entitiesFromIngest (ingest_processed_data g (process_radar_technique t)).1
    ∧ (∀ (technique_paths : List String) (g' : Graph),
        (run_full_pipeline env technique_paths g').1.total_entities_created =
          reported_entities_spec env technique_paths g')
    ∧ (ingest_processed_data demoGraph
        (process_radar_technique demoTechnique)).1.connections_created = 1
    ∧ (run_single_technique demoEnv "unit-testing" demoGraph).1.entities_created = 5
    ∧ entitiesFromIngest (ingest_processed_data demoGraph
        (process_radar_technique demoTechnique)).1 = 5 := by
  refine ⟨?_, ?_, by decide, by decide, by decide⟩
  · simp [run_single_technique, h, entitiesFromIngest]
  · intro technique_paths g'
    have haux := pipeline_total_spec_aux env
      ((if technique_paths.isEmpty then env.scrapeList else technique_paths).take 5)
      ({}, g')
    have hfst := congrArg Prod.fst haux
    exact hfst

/-- C10 witness: the scrape hypothesis discharged at the demo environment. -/
theorem entities_total_is_sum_of_four_witness :
    demoEnv.scrape ("/techniques/summary/" ++ "unit-testing") = some demoTechnique
    ∧ ((run_single_technique demoEnv "unit-testing" demoGraph).1.entities_created =
        entitiesFromIngest (ingest_processed_data demoGraph
          (process_radar_technique demoTechnique)).1
      ∧ (∀ (technique_paths : List String) (g' : Graph),
          (run_full_pipeline demoEnv technique_paths g').1.total_entities_created =
            reported_entities_spec demoEnv technique_paths g')
      ∧ (ingest_processed_data demoGraph
          (process_radar_technique demoTechnique)).1.connections_created = 1
      ∧ (run_single_technique demoEnv "unit-testing" demoGraph).1.entities_created = 5
      ∧ entitiesFromIngest (ingest_processed_data demoGraph
          (process_radar_technique demoTechnique)).1 = 5) :=
  ⟨by decide, entities_total_is_sum_of_four demoEnv demoGraph "unit-testing" demoTechnique
    (by decide)⟩

/-! ### Lemmas for the double-ingestion claim -/

/-- `ingest_processed_data` through the named loop states. -/
lemma ingest_processed_data_eq (g : Graph) (pd : ProcessedData) :
    ingest_processed_data g pd = ((ingestState5 g pd).2, (ingestState5 g pd).1) := rfl

/-- The methodology loop's step touches neither the other node lists nor the
other counters. -/
lemma methStep_preserves (s : Graph × IngestResults) (m : MethodologyCreate) :
    (methStep s m).1.practices = s.1.practices
    ∧ (methStep s m).1.rules = s.1.rules
    ∧ (methStep s m).1.evidence = s.1.evidence
    ∧ (methStep s m).2.practices_created = s.2.practices_created
    ∧ (methStep s m).2.rules_created = s.2.rules_created
    ∧ (methStep s m).2.evidence_created = s.2.evidence_created := by
  by_cases h : methodologyExists s.1 m.name <;> simp [methStep, h, createMethodology]

/-- The practice loop's step touches neither the other node lists nor the
other counters. -/
lemma pracStep_preserves (s : Graph × IngestResults) (p : PracticeCreate) :
    (pracStep s p).1.methodologies = s.1.methodologies
    ∧ (pracStep s p).1.rules = s.1.rules
    ∧ (pracStep s p).1.evidence = s.1.evidence
    ∧ (pracStep s p).2.methodologies_created = s.2.methodologies_created
    ∧ (pracStep s p).2.rules_created = s.2.rules_created
    ∧ (pracStep s p).2.evidence_created = s.2.evidence_created := by
  by_cases h1 : practiceExists s.1 p.name
  · simp [pracStep, h1]
  · by_cases h2 : methodologyExists s.1 p.methodology_name <;>
      simp [pracStep, createPractice, h1, h2]

/-- The rule loop's step touches neither the other node lists nor the other
counters. -/
lemma ruleStep_preserves (s : Graph × IngestResults) (r : RuleCreate) :
    (ruleStep s r).1.methodologies = s.1.methodologies
    ∧ (ruleStep s r).1.practices = s.1.practices
    ∧ (ruleStep s r).1.evidence = s.1.evidence
    ∧ (ruleStep s r).2.methodologies_created = s.2.methodologies_created
    ∧ (ruleStep s r).2.practices_created = s.2.practices_created
    ∧ (ruleStep s r).2.evidence_created = s.2.evidence_created := by
  by_cases h1 : (rulesByPractice s.1 r.practice_name).any (fun er => er.name == r.name)
  · simp [ruleStep, h1]
  · by_cases h2 : practiceExists s.1 r.practice_name <;>
      simp [ruleStep, createRule, h1, h2]

/-- The evidence loop's step appends the record and counts it, touching
nothing else. -/
lemma evidStep_eq (s : Graph × IngestResults) (e : EvidenceRecord) :
    (evidStep s e).1 = { s.1 with evidence := s.1.evidence ++ [e] }
    ∧ (evidStep s e).2.evidence_created = s.2.evidence_created + 1
    ∧ (evidStep s e).2.methodologies_created = s.2.methodologies_created
    ∧ (evidStep s e).2.practices_created = s.2.practices_created
    ∧ (evidStep s e).2.rules_created = s.2.rules_created :=
  ⟨rfl, rfl, rfl, rfl, rfl⟩

/-- The connection loop's step touches neither the node lists nor the entity
counters. -/
lemma connStep_preserves (s : Graph × IngestResults) (c : ConnectionRecord) :
    (connStep s c).1.methodologies = s.1.methodologies
    ∧ (connStep s c).1.practices = s.1.practices
    ∧ (connStep s c).1.rules = s.1.rules
    ∧ (connStep s c).1.evidence = s.1.evidence
    ∧ (connStep s c).2.methodologies_created = s.2.methodologies_created
    ∧ (connStep s c).2.practices_created = s.2.practices_created
    ∧ (connStep s c).2.rules_created = s.2.rules_created
    ∧ (connStep s c).2.evidence_created = s.2.evidence_created := by
  by_cases h1 : c.type == "SUPPORTED_BY"
  · by_cases h2 : evidenceExists s.1 c.to_name && ruleExists s.1 c.from_name <;>
      simp [connStep, linkToRule, h1, h2]
  · simp [connStep, h1]

/-- Fold version of `methStep_preserves`. -/
lemma foldM_preserves (ms : List MethodologyCreate) :
    ∀ s : Graph × IngestResults,
      (ms.foldl methStep s).1.practices = s.1.practices
      ∧ (ms.foldl methStep s).1.rules = s.1.rules
      ∧ (ms.foldl methStep s).1.evidence = s.1.evidence
      ∧ (ms.foldl methStep s).2.practices_created = s.2.practices_created
      ∧ (ms.foldl methStep s).2.rules_created = s.2.rules_created
      ∧ (ms.foldl methStep s).2.evidence_created = s.2.evidence_created := by
  induction ms with
  | nil => exact fun s => ⟨rfl, rfl, rfl, rfl, rfl, rfl⟩
  | cons m ms ih =>
    intro s
    obtain ⟨a1, a2, a3, a4, a5, a6⟩ := ih (methStep s m)
    obtain ⟨b1, b2, b3, b4, b5, b6⟩ := methStep_preserves s m
    exact ⟨a1.trans b1, a2.trans b2, a3.trans b3, a4.trans b4, a5.trans b5, a6.trans b6⟩

/-- Fold version of `pracStep_preserves`. -/
lemma foldP_preserves (ps : List PracticeCreate) :
    ∀ s : Graph × IngestResults,
      (ps.foldl pracStep s).1.methodologies = s.1.methodologies
      ∧ (ps.foldl pracStep s).1.rules = s.1.rules
      ∧ (ps.foldl pracStep s).1.evidence = s.1.evidence
      ∧ (ps.foldl pracStep s).2.methodologies_created = s.2.methodologies_created
      ∧ (ps.foldl pracStep s).2.rules_created = s.2.rules_created
      ∧ (ps.foldl pracStep s).2.evidence_created = s.2.evidence_created := by
  induction ps with
  | nil => exact fun s => ⟨rfl, rfl, rfl, rfl, rfl, rfl⟩
  | cons p ps ih =>
    intro s
    obtain ⟨a1, a2, a3, a4, a5, a6⟩ := ih (pracStep s p)
    obtain ⟨b1, b2, b3, b4, b5, b6⟩ := pracStep_preserves s p
    exact ⟨a1.trans b1, a2.trans b2, a3.trans b3, a4.trans b4, a5.trans b5, a6.trans b6⟩

/-- Fold version of `ruleStep_preserves`. -/
lemma foldR_preserves (rs : List RuleCreate) :
    ∀ s : Graph × IngestResults,
      (rs.foldl ruleStep s).1.methodologies = s.1.methodologies
      ∧ (rs.foldl ruleStep s).1.practices = s.1.practices
      ∧ (rs.foldl ruleStep s).1.evidence = s.1.evidence
      ∧ (rs.foldl ruleStep s).2.methodologies_created = s.2.methodologies_created
      ∧ (rs.foldl ruleStep s).2.practices_created = s.2.practices_created
      ∧ (rs.foldl ruleStep s).2.evidence_created = s.2.evidence_created := by
  induction rs with
  | nil => exact fun s => ⟨rfl, rfl, rfl, rfl, rfl, rfl⟩
  | cons r rs ih =>
    intro s
    obtain ⟨a1, a2, a3, a4, a5, a6⟩ := ih (ruleStep s r)
    obtain ⟨b1, b2, b3, b4, b5, b6⟩ := ruleStep_preserves s r
    exact ⟨a1.trans b1, a2.trans b2, a3.trans b3, a4.trans b4, a5.trans b5, a6.trans b6⟩

/-- Fold version of `evidStep_eq`: the evidence loop appends the whole batch
and counts its length. -/
lemma foldE_eq (es : List EvidenceRecord) :
    ∀ s : Graph × IngestResults,
      (es.foldl evidStep s).1 = { s.1 with evidence := s.1.evidence ++ es }
      ∧ (es.foldl evidStep s).2.evidence_created = s.2.evidence_created + es.length
      ∧ (es.foldl evidStep s).2.methodologies_created = s.2.methodologies_created
      ∧ (es.foldl evidStep s).2.practices_created = s.2.practices_created
      ∧ (es.foldl evidStep s).2.rules_created = s.2.rules_created := by
  induction es with
  | nil => intro s; refine ⟨?_, rfl, rfl, rfl, rfl⟩; simp
  | cons e es ih =>
    intro s
    obtain ⟨a1, a2, a3, a4, a5⟩ := ih (evidStep s e)
    refine ⟨?_, ?_, a3, a4, a5⟩
    · simp only [List.foldl_cons]
      rw [a1]
      simp [evidStep, createEvidence]
    · simp only [List.foldl_cons]
      rw [a2]
      have hev : (evidStep s e).2.evidence_created = s.2.evidence_created + 1 := rfl
      rw [hev, List.length_cons]
      omega

/-- Fold version of `connStep_preserves`. -/
lemma foldC_preserves (cs : List ConnectionRecord) :
    ∀ s : Graph × IngestResults,
      (cs.foldl connStep s).1.methodologies = s.1.methodologies
      ∧ (cs.foldl connStep s).1.practices = s.1.practices
      ∧ (cs.foldl connStep s).1.rules = s.1.rules
      ∧ (cs.foldl connStep s).1.evidence = s.1.evidence
      ∧ (cs.foldl connStep s).2.methodologies_created = s.2.methodologies_created
      ∧ (cs.foldl connStep s).2.practices_created = s.2.practices_created
      ∧ (cs.foldl connStep s).2.rules_created = s.2.rules_created
      ∧ (cs.foldl connStep s).2.evidence_created = s.2.evidence_created := by
  induction cs with
  | nil => exact fun s => ⟨rfl, rfl, rfl, rfl, rfl, rfl, rfl, rfl⟩
  | cons c cs ih =>
    intro s
    obtain ⟨a1, a2, a3, a4, a5, a6, a7, a8⟩ := ih (connStep s c)
    obtain ⟨b1, b2, b3, b4, b5, b6, b7, b8⟩ := connStep_preserves s c
    exact ⟨a1.trans b1, a2.trans b2, a3.trans b3, a4.trans b4, a5.trans b5, a6.trans b6,
      a7.trans b7, a8.trans b8⟩

/-- The methodology loop only appends (a sub-batch of) its input. -/
lemma foldM_methodologies (ms : List MethodologyCreate) :
    ∀ s : Graph × IngestResults,
      ∃ extra, (ms.foldl methStep s).1.methodologies = s.1.methodologies ++ extra
        ∧ extra.Sublist ms := by
  induction ms with
  | nil => exact fun s => ⟨[], by simp, by simp⟩
  | cons m ms ih =>
    intro s
    obtain ⟨e2, he2, hs2⟩ := ih (methStep s m)
    by_cases h : methodologyExists s.1 m.name
    · refine ⟨e2, ?_, hs2.cons m⟩
      simp only [List.foldl_cons]
      rw [he2]
      simp [methStep, h]
    · refine ⟨m :: e2, ?_, hs2.cons₂ m⟩
      simp only [List.foldl_cons]
      rw [he2]
      simp [methStep, h, createMethodology]

/-- The practice loop only appends (a sub-batch of) its input. -/
lemma foldP_practices (ps : List PracticeCreate) :
    ∀ s : Graph × IngestResults,
      ∃ extra, (ps.foldl pracStep s).1.practices = s.1.practices ++ extra
        ∧ extra.Sublist ps := by
  induction ps with
  | nil => exact fun s => ⟨[], by simp, by simp⟩
  | cons p ps ih =>
    intro s
    obtain ⟨e2, he2, hs2⟩ := ih (pracStep s p)
    have hsplit : (pracStep s p).1.practices = s.1.practices
        ∨ (pracStep s p).1.practices = s.1.practices ++ [p] := by
      by_cases h1 : practiceExists s.1 p.name
      · left; simp [pracStep, h1]
      · by_cases h2 : methodologyExists s.1 p.methodology_name
        · right; simp [pracStep, createPractice, h1, h2]
        · left; simp [pracStep, createPractice, h1, h2]
    rcases hsplit with h | h
    · refine ⟨e2, ?_, hs2.cons p⟩
      simp only [List.foldl_cons]
      rw [he2, h]
    · refine ⟨p :: e2, ?_, hs2.cons₂ p⟩
      simp only [List.foldl_cons]
      rw [he2, h]
      simp

/-- The rule loop only appends (a sub-batch of) its input. -/
lemma foldR_rules (rs : List RuleCreate) :
    ∀ s : Graph × IngestResults,
      ∃ extra, (rs.foldl ruleStep s).1.rules = s.1.rules ++ extra
        ∧ extra.Sublist rs := by
  induction rs with
  | nil => exact fun s => ⟨[], by simp, by simp⟩
  | cons r rs ih =>
    intro s
    obtain ⟨e2, he2, hs2⟩ := ih (ruleStep s r)
    have hsplit : (ruleStep s r).1.rules = s.1.rules
        ∨ (ruleStep s r).1.rules = s.1.rules ++ [r] := by
      by_cases h1 : (rulesByPractice s.1 r.practice_name).any (fun er => er.name == r.name)
      · left; simp [ruleStep, h1]
      · by_cases h2 : practiceExists s.1 r.practice_name
        · right; simp [ruleStep, createRule, h1, h2]
        · left; simp [ruleStep, createRule, h1, h2]
    rcases hsplit with h | h
    · refine ⟨e2, ?_, hs2.cons r⟩
      simp only [List.foldl_cons]
      rw [he2, h]
    · refine ⟨r :: e2, ?_, hs2.cons₂ r⟩
      simp only [List.foldl_cons]
      rw [he2, h]
      simp

/-- Methodology existence only depends on the methodology list and survives
appends. -/
lemma methodologyExists_append (g g' : Graph) (extra : List MethodologyCreate) (n : String)
    (hg : g'.methodologies = g.methodologies ++ extra)
    (h : methodologyExists g n = true) : methodologyExists g' n = true := by
  unfold methodologyExists at *
  rw [hg, List.any_append, h, Bool.true_or]

/-- Practice existence survives appends. -/
lemma practiceExists_append (g g' : Graph) (extra : List PracticeCreate) (n : String)
    (hg : g'.practices = g.practices ++ extra)
    (h : practiceExists g n = true) : practiceExists g' n = true := by
  unfold practiceExists at *
  rw [hg, List.any_append, h, Bool.true_or]

/-- A rule-name hit among a practice's rules survives appends to the rule
list. -/
lemma rulesAny_append (g g' : Graph) (extra : List RuleCreate) (pname rname : String)
    (hg : g'.rules = g.rules ++ extra)
    (h : (rulesByPractice g pname).any (fun er => er.name == rname) = true) :
    (rulesByPractice g' pname).any (fun er => er.name == rname) = true := by
  unfold rulesByPractice at *
  rw [hg, List.filter_append, List.any_append, h, Bool.true_or]

/-- After its own step, a methodology exists. -/
lemma methStep_exists_self (s : Graph × IngestResults) (m : MethodologyCreate) :
    methodologyExists (methStep s m).1 m.name = true := by
  by_cases h : methodologyExists s.1 m.name
  · have hstep : methStep s m = s := by simp [methStep, h]
    rw [hstep]
    exact h
  · have hstep : (methStep s m).1 = { s.1 with methodologies := s.1.methodologies ++ [m] } := by
      simp [methStep, h, createMethodology]
    rw [hstep]
    show (s.1.methodologies ++ [m]).any (fun x => x.name == m.name) = true
    rw [List.any_append]
    simp

/-- After the methodology loop, every batch methodology exists. -/
lemma foldM_exists (ms : List MethodologyCreate) :
    ∀ s : Graph × IngestResults, ∀ m ∈ ms,
      methodologyExists (ms.foldl methStep s).1 m.name = true := by
  induction ms with
  | nil => simp
  | cons m0 ms ih =>
    intro s m hm
    rw [List.foldl_cons]
    rcases List.mem_cons.mp hm with h | h
    · subst h
      obtain ⟨extra, hex, _⟩ := foldM_methodologies ms (methStep s m)
      exact methodologyExists_append _ _ extra _ hex (methStep_exists_self s m)
    · exact ih _ m h

/-- After its own step, the practice invariant holds. -/
lemma pracStep_self (s : Graph × IngestResults) (p : PracticeCreate) :
    PracInv (pracStep s p).1 p := by
  by_cases h1 : practiceExists s.1 p.name
  · left
    have hstep : pracStep s p = s := by simp [pracStep, h1]
    rw [hstep]
    exact h1
  · by_cases h2 : methodologyExists s.1 p.methodology_name
    · left
      have hstep : (pracStep s p).1 = { s.1 with practices := s.1.practices ++ [p] } := by
        simp [pracStep, createPractice, h1, h2]
      rw [hstep]
      show (s.1.practices ++ [p]).any (fun x => x.name == p.name) = true
      rw [List.any_append]
      simp
    · right
      have hstep : (pracStep s p).1 = s.1 := by
        simp [pracStep, createPractice, h1, h2]
      rw [hstep]
      exact (Bool.not_eq_true _).mp h2

/-- The practice invariant survives practice appends that keep the
methodology list unchanged. -/
lemma PracInv_mono (g g' : Graph) (p : PracticeCreate)
    (hp : ∃ extra, g'.practices = g.practices ++ extra)
    (hm : g'.methodologies = g.methodologies) :
    PracInv g p → PracInv g' p := by
  rintro (h | h)
  · obtain ⟨extra, hex⟩ := hp
    exact Or.inl (practiceExists_append g g' extra _ hex h)
  · right
    unfold methodologyExists at *
    rw [hm]
    exact h

/-- After the practice loop, the practice invariant holds for every batch
practice. -/
lemma foldP_inv (ps : List PracticeCreate) :
    ∀ s : Graph × IngestResults, ∀ p ∈ ps, PracInv (ps.foldl pracStep s).1 p := by
  induction ps with
  | nil => simp
  | cons p0 ps ih =>
    intro s p hp
    rw [List.foldl_cons]
    rcases List.mem_cons.mp hp with h | h
    · subst h
      obtain ⟨extra, hex, _⟩ := foldP_practices ps (pracStep s p)
      have hm := (foldP_preserves ps (pracStep s p)).1
      exact PracInv_mono _ _ p ⟨extra, hex⟩ hm (pracStep_self s p)
    · exact ih _ p h

/-- After its own step, the rule invariant holds. -/
lemma ruleStep_self (s : Graph × IngestResults) (r : RuleCreate) :
    RuleInv (ruleStep s r).1 r := by
  by_cases h1 : (rulesByPractice s.1 r.practice_name).any (fun er => er.name == r.name)
  · left
    have hstep : ruleStep s r = s := by simp [ruleStep, h1]
    rw [hstep]
    exact h1
  · by_cases h2 : practiceExists s.1 r.practice_name
    · left
      have hstep : (ruleStep s r).1 = { s.1 with rules := s.1.rules ++ [r] } := by
        simp [ruleStep, createRule, h1, h2]
      rw [hstep]
      show ((s.1.rules ++ [r]).filter
          (fun x => x.practice_name == r.practice_name)).any (fun er => er.name == r.name) = true
      rw [List.filter_append, List.any_append]
      simp
    · right
      have hstep : (ruleStep s r).1 = s.1 := by
        simp [ruleStep, createRule, h1, h2]
      rw [hstep]
      exact (Bool.not_eq_true _).mp h2

/-- The rule invariant survives rule appends that keep the practice list
unchanged. -/
lemma RuleInv_mono (g g' : Graph) (r : RuleCreate)
    (hr : ∃ extra, g'.rules = g.rules ++ extra)
    (hp : g'.practices = g.practices) :
    RuleInv g r → RuleInv g' r := by
  rintro (h | h)
  · obtain ⟨extra, hex⟩ := hr
    exact Or.inl (rulesAny_append g g' extra _ _ hex h)
  · right
    unfold practiceExists at *
    rw [hp]
    exact h

/-- After the rule loop, the rule invariant holds for every batch rule. -/
lemma foldR_inv (rs : List RuleCreate) :
    ∀ s : Graph × IngestResults, ∀ r ∈ rs, RuleInv (rs.foldl ruleStep s).1 r := by
  induction rs with
  | nil => simp
  | cons r0 rs ih =>
    intro s r hr
    rw [List.foldl_cons]
    rcases List.mem_cons.mp hr with h | h
    · subst h
      obtain ⟨extra, hex, _⟩ := foldR_rules rs (ruleStep s r)
      have hp := (foldR_preserves rs (ruleStep s r)).2.1
      exact RuleInv_mono _ _ r ⟨extra, hex⟩ hp (ruleStep_self s r)
    · exact ih _ r h

/-- With every batch methodology already present the methodology loop is the
identity. -/
lemma foldM_skip (ms : List MethodologyCreate) :
    ∀ s : Graph × IngestResults,
      (∀ m ∈ ms, methodologyExists s.1 m.name = true) → ms.foldl methStep s = s := by
  induction ms with
  | nil => exact fun s _ => rfl
  | cons m ms ih =>
    intro s h
    rw [List.foldl_cons]
    have hm : methStep s m = s := by
      simp [methStep, h m (List.mem_cons_self m ms)]
    rw [hm]
    exact ih s (fun m' hm' => h m' (List.mem_cons_of_mem m hm'))

/-- Under the practice invariant a practice-loop step leaves the graph and
the created counter unchanged (only the error list may grow). -/
lemma pracStep_skip (s : Graph × IngestResults) (p : PracticeCreate) (h : PracInv s.1 p) :
    (pracStep s p).1 = s.1
    ∧ (pracStep s p).2.practices_created = s.2.practices_created := by
  by_cases h1 : practiceExists s.1 p.name
  · constructor <;> simp [pracStep, h1]
  · rcases h with h | h
    · exact absurd h h1
    · constructor <;> simp [pracStep, createPractice, h1, h]

/-- Under the practice invariant the practice loop leaves the graph and the
created counter unchanged. -/
lemma foldP_skip (ps : List PracticeCreate) :
    ∀ s : Graph × IngestResults, (∀ p ∈ ps, PracInv s.1 p) →
      (ps.foldl pracStep s).1 = s.1
      ∧ (ps.foldl pracStep s).2.practices_created = s.2.practices_created := by
  induction ps with
  | nil => exact fun s _ => ⟨rfl, rfl⟩
  | cons p ps ih =>
    intro s h
    rw [List.foldl_cons]
    obtain ⟨hg, hc⟩ := pracStep_skip s p (h p (List.mem_cons_self p ps))
    obtain ⟨hg2, hc2⟩ := ih (pracStep s p) (fun p' hp' => by
      rw [hg]; exact h p' (List.mem_cons_of_mem p hp'))
    exact ⟨hg2.trans hg, hc2.trans hc⟩

/-- Under the rule invariant a rule-loop step leaves the graph and the
created counter unchanged (only the error list may grow). -/
lemma ruleStep_skip (s : Graph × IngestResults) (r : RuleCreate) (h : RuleInv s.1 r) :
    (ruleStep s r).1 = s.1
    ∧ (ruleStep s r).2.rules_created = s.2.rules_created := by
  by_cases h1 : (rulesByPractice s.1 r.practice_name).any (fun er => er.name == r.name)
  · constructor <;> simp [ruleStep, h1]
  · rcases h with h | h
    · exact absurd h h1
    · constructor <;> simp [ruleStep, createRule, h1, h]

/-- Under the rule invariant the rule loop leaves the graph and the created
counter unchanged. -/
lemma foldR_skip (rs : List RuleCreate) :
    ∀ s : Graph × IngestResults, (∀ r ∈ rs, RuleInv s.1 r) →
      (rs.foldl ruleStep s).1 = s.1
      ∧ (rs.foldl ruleStep s).2.rules_created = s.2.rules_created := by
  induction rs with
  | nil => exact fun s _ => ⟨rfl, rfl⟩
  | cons r rs ih =>
    intro s h
    rw [List.foldl_cons]
    obtain ⟨hg, hc⟩ := ruleStep_skip s r (h r (List.mem_cons_self r rs))
    obtain ⟨hg2, hc2⟩ := ih (ruleStep s r) (fun r' hr' => by
      rw [hg]; exact h r' (List.mem_cons_of_mem r hr'))
    exact ⟨hg2.trans hg, hc2.trans hc⟩

/-- Methodology existence depends only on the methodology list. -/
lemma methodologyExists_congr (g g' : Graph) (hm : g'.methodologies = g.methodologies)
    (n : String) : methodologyExists g' n = methodologyExists g n := by
  unfold methodologyExists
  rw [hm]

/-- The practice invariant depends only on the practice and methodology
lists. -/
lemma PracInv_congr (g g' : Graph) (hp : g'.practices = g.practices)
    (hm : g'.methodologies = g.methodologies) (p : PracticeCreate) :
    PracInv g' p ↔ PracInv g p := by
  unfold PracInv practiceExists methodologyExists
  rw [hp, hm]

/-- The rule invariant depends only on the rule and practice lists. -/
lemma RuleInv_congr (g g' : Graph) (hr : g'.rules = g.rules)
    (hp : g'.practices = g.practices) (r : RuleCreate) :
    RuleInv g' r ↔ RuleInv g r := by
  unfold RuleInv rulesByPractice practiceExists
  rw [hr, hp]

/-- Postconditions of one `ingest_processed_data` pass: every batch
methodology exists afterwards, every batch practice and rule satisfies its
no-op invariant, the whole evidence batch was appended (and counted), and the
methodology/practice/rule lists only grew by sub-batches. -/
lemma ingest_fields (g0 : Graph) (pd : ProcessedData) :
    (∀ m ∈ pd.methodologies,
      methodologyExists (ingest_processed_data g0 pd).2 m.name = true)
    ∧ (∀ p ∈ pd.practices, PracInv (ingest_processed_data g0 pd).2 p)
    ∧ (∀ r ∈ pd.rules, RuleInv (ingest_processed_data g0 pd).2 r)
    ∧ (ingest_processed_data g0 pd).2.evidence = g0.evidence ++ pd.evidence
    ∧ (ingest_processed_data g0 pd).1.evidence_created = pd.evidence.length
    ∧ (∃ eM, (ingest_processed_data g0 pd).2.methodologies = g0.methodologies ++ eM
        ∧ eM.Sublist pd.methodologies)
    ∧ (∃ eP, (ingest_processed_data g0 pd).2.practices = g0.practices ++ eP
        ∧ eP.Sublist pd.practices)
    ∧ (∃ eR, (ingest_processed_data g0 pd).2.rules = g0.rules ++ eR
        ∧ eR.Sublist pd.rules) := by
  have e1 : ingestState1 g0 pd = pd.methodologies.foldl methStep (g0, ({} : IngestResults)) :=
    rfl
  have e2 : ingestState2 g0 pd = pd.practices.foldl pracStep (ingestState1 g0 pd) := rfl
  have e3 : ingestState3 g0 pd = pd.rules.foldl ruleStep (ingestState2 g0 pd) := rfl
  have e4 : ingestState4 g0 pd = pd.evidence.foldl evidStep (ingestState3 g0 pd) := rfl
  have e5 : ingestState5 g0 pd = pd.connections.foldl connStep (ingestState4 g0 pd) := rfl
  obtain ⟨hC1, hC2, hC3, hC4, hC5, hC6, hC7, hC8⟩ :=
    foldC_preserves pd.connections (ingestState4 g0 pd)
  rw [← e5] at hC1 hC2 hC3 hC4 hC5 hC6 hC7 hC8
  obtain ⟨hE1, hE2, hE3, hE4, hE5⟩ := foldE_eq pd.evidence (ingestState3 g0 pd)
  rw [← e4] at hE1 hE2 hE3 hE4 hE5
  obtain ⟨hR1, hR2, hR3, hR4, hR5, hR6⟩ := foldR_preserves pd.rules (ingestState2 g0 pd)
  rw [← e3] at hR1 hR2 hR3 hR4 hR5 hR6
  obtain ⟨hP1, hP2, hP3, hP4, hP5, hP6⟩ := foldP_preserves pd.practices (ingestState1 g0 pd)
  rw [← e2] at hP1 hP2 hP3 hP4 hP5 hP6
  obtain ⟨hM1, hM2, hM3, hM4, hM5, hM6⟩ :=
    foldM_preserves pd.methodologies (g0, ({} : IngestResults))
  rw [← e1] at hM1 hM2 hM3 hM4 hM5 hM6
  have hg : (ingest_processed_data g0 pd).2 = (ingestState5 g0 pd).1 := rfl
  have hc : (ingest_processed_data g0 pd).1 = (ingestState5 g0 pd).2 := rfl
  have hE1m : (ingestState4 g0 pd).1.methodologies =
      (ingestState3 g0 pd).1.methodologies := by rw [hE1]
  have hE1p : (ingestState4 g0 pd).1.practices = (ingestState3 g0 pd).1.practices := by
    rw [hE1]
  have hE1r : (ingestState4 g0 pd).1.rules = (ingestState3 g0 pd).1.rules := by
    rw [hE1]
  have hE1e : (ingestState4 g0 pd).1.evidence =
      (ingestState3 g0 pd).1.evidence ++ pd.evidence := by
    rw [hE1]
  have hmeths : (ingestState5 g0 pd).1.methodologies =
      (ingestState1 g0 pd).1.methodologies :=
    (((hC1.trans hE1m).trans hR1).trans hP1)
  have hpracs : (ingestState5 g0 pd).1.practices = (ingestState2 g0 pd).1.practices :=
    (hC2.trans hE1p).trans hR2
  have hrules : (ingestState5 g0 pd).1.rules = (ingestState3 g0 pd).1.rules :=
    hC3.trans hE1r
  refine ⟨?_, ?_, ?_, ?_, ?_, ?_, ?_, ?_⟩
  · intro m hm
    have h1 := foldM_exists pd.methodologies (g0, ({} : IngestResults)) m hm
    rw [← e1] at h1
    rw [hg, methodologyExists_congr _ _ hmeths]
    exact h1
  · intro p hp
    have h1 := foldP_inv pd.practices (ingestState1 g0 pd) p hp
    rw [← e2] at h1
    rw [hg]
    exact (PracInv_congr _ _ hpracs (hmeths.trans hP1.symm) p).mpr h1
  · intro r hr
    have h1 := foldR_inv pd.rules (ingestState2 g0 pd) r hr
    rw [← e3] at h1
    rw [hg]
    exact (RuleInv_congr _ _ hrules (hpracs.trans hR2.symm) r).mpr h1
  · rw [hg, hC4, hE1e, hR3, hP3, hM3]
  · rw [hc, hC8, hE2, hR6, hP6, hM6]
    simp
  · obtain ⟨eM, heM, hsM⟩ := foldM_methodologies pd.methodologies (g0, ({} : IngestResults))
    rw [← e1] at heM
    exact ⟨eM, by rw [hg, hmeths]; exact heM, hsM⟩
  · obtain ⟨eP, heP, hsP⟩ := foldP_practices pd.practices (ingestState1 g0 pd)
    rw [← e2] at heP
    exact ⟨eP, by rw [hg, hpracs, heP, hM1], hsP⟩
  · obtain ⟨eR, heR, hsR⟩ := foldR_rules pd.rules (ingestState2 g0 pd)
    rw [← e3] at heR
    exact ⟨eR, by rw [hg, hrules, heR, hP2, hM2], hsR⟩

/-- When every batch methodology already exists and every batch practice and
rule satisfies its no-op invariant, a pass of `ingest_processed_data` creates
no methodology, practice or rule, creates the whole evidence batch again, and
leaves the methodology/practice/rule lists untouched. -/
lemma ingest_skip (g : Graph) (pd : ProcessedData)
    (hM : ∀ m ∈ pd.methodologies, methodologyExists g m.name = true)
    (hP : ∀ p ∈ pd.practices, PracInv g p)
    (hR : ∀ r ∈ pd.rules, RuleInv g r) :
    (ingest_processed_data g pd).1.methodologies_created = 0
    ∧ (ingest_processed_data g pd).1.practices_created = 0
    ∧ (ingest_processed_data g pd).1.rules_created = 0
    ∧ (ingest_processed_data g pd).1.evidence_created = pd.evidence.length
    ∧ (ingest_processed_data g pd).2.methodologies = g.methodologies
    ∧ (ingest_processed_data g pd).2.practices = g.practices
    ∧ (ingest_processed_data g pd).2.rules = g.rules
    ∧ (ingest_processed_data g pd).2.evidence = g.evidence ++ pd.evidence := by
  have e1 : ingestState1 g pd = pd.methodologies.foldl methStep (g, ({} : IngestResults)) :=
    rfl
  have e2 : ingestState2 g pd = pd.practices.foldl pracStep (ingestState1 g pd) := rfl
  have e3 : ingestState3 g pd = pd.rules.foldl ruleStep (ingestState2 g pd) := rfl
  have e4 : ingestState4 g pd = pd.evidence.foldl evidStep (ingestState3 g pd) := rfl
  have e5 : ingestState5 g pd = pd.connections.foldl connStep (ingestState4 g pd) := rfl
  have hs1 : ingestState1 g pd = (g, ({} : IngestResults)) := by
    rw [e1]
    exact foldM_skip pd.methodologies _ hM
  have hs1g : (ingestState1 g pd).1 = g := congrArg Prod.fst hs1
  have hs1c : (ingestState1 g pd).2 = ({} : IngestResults) := congrArg Prod.snd hs1
  have hPinv : ∀ p ∈ pd.practices, PracInv (ingestState1 g pd).1 p := by
    intro p hp
    rw [hs1g]
    exact hP p hp
  have hs2 := foldP_skip pd.practices (ingestState1 g pd) hPinv
  rw [← e2] at hs2
  have hs2g : (ingestState2 g pd).1 = g := hs2.1.trans hs1g
  have hRinv : ∀ r ∈ pd.rules, RuleInv (ingestState2 g pd).1 r := by
    intro r hr
    rw [hs2g]
    exact hR r hr
  have hs3 := foldR_skip pd.rules (ingestState2 g pd) hRinv
  rw [← e3] at hs3
  have hs3g : (ingestState3 g pd).1 = g := hs3.1.trans hs2g
  obtain ⟨hE1, hE2, hE3, hE4, hE5⟩ := foldE_eq pd.evidence (ingestState3 g pd)
  rw [← e4] at hE1 hE2 hE3 hE4 hE5
  obtain ⟨hC1, hC2, hC3, hC4, hC5, hC6, hC7, hC8⟩ :=
    foldC_preserves pd.connections (ingestState4 g pd)
  rw [← e5] at hC1 hC2 hC3 hC4 hC5 hC6 hC7 hC8
  obtain ⟨hR1, hR2, hR3, hR4, hR5, hR6⟩ := foldR_preserves pd.rules (ingestState2 g pd)
  rw [← e3] at hR1 hR2 hR3 hR4 hR5 hR6
  obtain ⟨hP1, hP2, hP3, hP4, hP5, hP6⟩ := foldP_preserves pd.practices (ingestState1 g pd)
  rw [← e2] at hP1 hP2 hP3 hP4 hP5 hP6
  have hg : (ingest_processed_data g pd).2 = (ingestState5 g pd).1 := rfl
  have hc : (ingest_processed_data g pd).1 = (ingestState5 g pd).2 := rfl
  have hE1m : (ingestState4 g pd).1.methodologies =
      (ingestState3 g pd).1.methodologies := by rw [hE1]
  have hE1p : (ingestState4 g pd).1.practices = (ingestState3 g pd).1.practices := by
    rw [hE1]
  have hE1r : (ingestState4 g pd).1.rules = (ingestState3 g pd).1.rules := by
    rw [hE1]
  have hE1e : (ingestState4 g pd).1.evidence =
      (ingestState3 g pd).1.evidence ++ pd.evidence := by
    rw [hE1]
  refine ⟨?_, ?_, ?_, ?_, ?_, ?_, ?_, ?_⟩
  · rw [hc, hC5, hE3, hR4, hP4, hs1c]
  · rw [hc, hC6, hE4, hR5, hs2.2, hs1c]
  · rw [hc, hC7, hE5, hs3.2, hP5, hs1c]
  · rw [hc, hC8, hE2, hR6, hP6, hs1c]
    simp
  · rw [hg, hC1, hE1m, hs3g]
  · rw [hg, hC2, hE1p, hs3g]
  · rw [hg, hC3, hE1r, hs3g]
  · rw [hg, hC4, hE1e, hs3g]

/-- `nameCount` distributes over append. -/
lemma nameCount_append {α : Type} (f : α → String) (l₁ l₂ : List α) (n : String) :
    nameCount f (l₁ ++ l₂) n = nameCount f l₁ n + nameCount f l₂ n := by
  simp [nameCount, List.filter_append]

/-- `nameCount` is monotone along sublists. -/
lemma nameCount_le_of_sublist {α : Type} (f : α → String) {l₁ l₂ : List α}
    (h : l₁.Sublist l₂) (n : String) : nameCount f l₁ n ≤ nameCount f l₂ n :=
  (h.filter _).length_le

/-- `nameCount` is bounded by the list length. -/
lemma nameCount_le_length {α : Type} (f : α → String) (l : List α) (n : String) :
    nameCount f l n ≤ l.length :=
  List.length_filter_le _ _

/-- A singleton contributes at most one to any `nameCount`. -/
lemma nameCount_singleton_le {α : Type} (f : α → String) (x : α) (n : String) :
    nameCount f [x] n ≤ 1 := by
  simp only [nameCount, List.filter_cons, List.filter_nil]
  split <;> simp

/-- Two records with different names contribute at most one between them. -/
lemma nameCount_pair_ne {α : Type} (f : α → String) (x y : α) (n : String)
    (hne : f x ≠ f y) : nameCount f [x] n + nameCount f [y] n ≤ 1 := by
  by_cases hx : (f x == n) = true
  · have hy : (f y == n) = false := by
      refine beq_eq_false_iff_ne.mpr (fun heq => ?_)
      exact hne ((eq_of_beq hx).trans heq.symm)
    simp [nameCount, List.filter_cons, List.filter_nil, hx, hy]
  · have hx' : (f x == n) = false := (Bool.not_eq_true _).mp hx
    rw [show nameCount f [x] n = 0 from by
      simp [nameCount, List.filter_cons, List.filter_nil, hx']]
    simpa using nameCount_singleton_le f y n

/-- A processor batch holds at most one methodology. -/
lemma pd_methodologies_len (t : RadarTechnique) :
    (process_radar_technique t).methodologies.length ≤ 1 := by
  simp only [process_radar_technique, map_technique_to_entities]
  split <;> simp

/-- A processor batch holds exactly one rule. -/
lemma pd_rules_len (t : RadarTechnique) :
    (process_radar_technique t).rules.length = 1 := rfl

/-- For each name, a processor batch holds at most one practice with it: the
rule-A practice is called `"<name> Practice"` and the rule-B one `"<name>"`,
which differ. -/
lemma pd_practices_nameCount (t : RadarTechnique) (n : String) :
    nameCount (fun p => p.name) (process_radar_technique t).practices n ≤ 1 := by
  simp only [process_radar_technique, map_technique_to_entities]
  rw [nameCount_append]
  split
  · split
    · refine nameCount_pair_ne _ _ _ n ?_
      show t.name ++ " Practice" ≠ t.name
      exact beq_eq_false_iff_ne.mp (name_practice_ne t.name)
    · rw [show nameCount (fun p : PracticeCreate => p.name) [] n = 0 from rfl]
      simpa using nameCount_singleton_le (fun p : PracticeCreate => p.name) _ n
  · split
    · rw [show nameCount (fun p : PracticeCreate => p.name) [] n = 0 from rfl]
      simpa using nameCount_singleton_le (fun p : PracticeCreate => p.name) _ n
    · simp [nameCount]

/-- C3: processing a technique (with a source URL) and ingesting the batch
twice creates each Methodology, Practice and Rule node at most once — the
second pass creates none of them — while each pass creates the Evidence
record unconditionally, so the evidence list receives the batch twice. -/
theorem double_ingest_dedup (t : RadarTechnique) (g0 : Graph)
    (h : t.source_url.isSome = true) :
    (∀ n, nameCount (fun m => m.name)
        (ingest_processed_data (ingest_processed_data g0 (process_radar_technique t)).2
          (process_radar_technique t)).2.methodologies n
      ≤ nameCount (fun m => m.name) g0.methodologies n + 1)
    ∧ (∀ n, nameCount (fun p => p.name)
        (ingest_processed_data (ingest_processed_data g0 (process_radar_technique t)).2
          (process_radar_technique t)).2.practices n
      ≤ nameCount (fun p => p.name) g0.practices n + 1)
    ∧ (∀ n, nameCount (fun r => r.name)
        (ingest_processed_data (ingest_processed_data g0 (process_radar_technique t)).2
          (process_radar_technique t)).2.rules n
      ≤ nameCount (fun r => r.name) g0.rules n + 1)
    ∧ (ingest_processed_data (ingest_processed_data g0 (process_radar_technique t)).2
        (process_radar_technique t)).1.methodologies_created = 0
    ∧ (ingest_processed_data (ingest_processed_data g0 (process_radar_technique t)).2
        (process_radar_technique t)).1.practices_created = 0
    ∧ (ingest_processed_data (ingest_processed_data g0 (process_radar_technique t)).2
        (process_radar_technique t)).1.rules_created = 0
    ∧ (ingest_processed_data g0 (process_radar_technique t)).1.evidence_created = 1
    ∧ (ingest_processed_data (ingest_processed_data g0 (process_radar_technique t)).2
        (process_radar_technique t)).1.evidence_created = 1
    ∧ (ingest_processed_data (ingest_processed_data g0 (process_radar_technique t)).2
        (process_radar_technique t)).2.evidence =
        g0.evidence ++ (process_radar_technique t).evidence
          ++ (process_radar_technique t).evidence
    ∧ (process_radar_technique t).evidence.length = 1 := by
  obtain ⟨u, hu⟩ := Option.isSome_iff_exists.mp h
  have hev : (process_radar_technique t).evidence.length = 1 := by
    simp [process_radar_technique, generate_evidence_from_technique, hu]
  obtain ⟨f1, f2, f3, f4, f5, ⟨eM, heM, hsM⟩, ⟨eP, heP, hsP⟩, ⟨eR, heR, hsR⟩⟩ :=
    ingest_fields g0 (process_radar_technique t)
  obtain ⟨k1, k2, k3, k4, k5, k6, k7, k8⟩ :=
    ingest_skip (ingest_processed_data g0 (process_radar_technique t)).2
      (process_radar_technique t) f1 f2 f3
  refine ⟨?_, ?_, ?_, k1, k2, k3, by rw [f5, hev], by rw [k4, hev], ?_, hev⟩
  · intro n
    rw [k5, heM, nameCount_append]
    have h1 : nameCount (fun m : MethodologyCreate => m.name) eM n ≤ 1 :=
      le_trans (le_trans (nameCount_le_of_sublist _ hsM n) (nameCount_le_length _ _ n))
        (pd_methodologies_len t)
    omega
  · intro n
    rw [k6, heP, nameCount_append]
    have h1 : nameCount (fun p : PracticeCreate => p.name) eP n ≤ 1 :=
      le_trans (nameCount_le_of_sublist _ hsP n) (pd_practices_nameCount t n)
    omega
  · intro n
    rw [k7, heR, nameCount_append]
    have h1 : nameCount (fun r : RuleCreate => r.name) eR n ≤ 1 :=
      le_trans (le_trans (nameCount_le_of_sublist _ hsR n) (nameCount_le_length _ _ n))
        (le_of_eq (pd_rules_len t))
    omega
  · rw [k8, f4]

/-- C3 witness: the double ingestion of the demo technique from the empty
store. -/
theorem double_ingest_dedup_witness :
    demoTechnique.source_url.isSome = true
    ∧ ((∀ n, nameCount (fun m => m.name)
          (ingest_processed_data
            (ingest_processed_data emptyGraph (process_radar_technique demoTechnique)).2
            (process_radar_technique demoTechnique)).2.methodologies n
        ≤ nameCount (fun m => m.name) emptyGraph.methodologies n + 1)
      ∧ (∀ n, nameCount (fun p => p.name)
          (ingest_processed_data
            (ingest_processed_data emptyGraph (process_radar_technique demoTechnique)).2
            (process_radar_technique demoTechnique)).2.practices n
        ≤ nameCount (fun p => p.name) emptyGraph.practices n + 1)
      ∧ (∀ n, nameCount (fun r => r.name)
          (ingest_processed_data
            (ingest_processed_data emptyGraph (process_radar_technique demoTechnique)).2
            (process_radar_technique demoTechnique)).2.rules n
        ≤ nameCount (fun r => r.name) emptyGraph.rules n + 1)
      ∧ (ingest_processed_data
          (ingest_processed_data emptyGraph (process_radar_technique demoTechnique)).2
          (process_radar_technique demoTechnique)).1.methodologies_created = 0
      ∧ (ingest_processed_data
          (ingest_processed_data emptyGraph (process_radar_technique demoTechnique)).2
          (process_radar_technique demoTechnique)).1.practices_created = 0
      ∧ (ingest_processed_data
          (ingest_processed_data emptyGraph (process_radar_technique demoTechnique)).2
          (process_radar_technique demoTechnique)).1.rules_created = 0
      ∧ (ingest_processed_data emptyGraph
          (process_radar_technique demoTechnique)).1.evidence_created = 1
      ∧ (ingest_processed_data
          (ingest_processed_data emptyGraph (process_radar_technique demoTechnique)).2
          (process_radar_technique demoTechnique)).1.evidence_created = 1
      ∧ (ingest_processed_data
          (ingest_processed_data emptyGraph (process_radar_technique demoTechnique)).2
          (process_radar_technique demoTechnique)).2.evidence =
          emptyGraph.evidence ++ (process_radar_technique demoTechnique).evidence
            ++ (process_radar_technique demoTechnique).evidence
      ∧ (process_radar_technique demoTechnique).evidence.length = 1) :=
  ⟨rfl, double_ingest_dedup demoTechnique emptyGraph rfl⟩

end KG
